import Mathlib

/-!
Verification development for the oxidice dice-expression engine.

The definitions below are a shallow embedding of the Rust sources:
`types/hir.rs`, `types/expr.rs`, `optimizer/fold_binary_op.rs`,
`optimizer/constant_fold.rs`, `lower.rs`, `grammar.rs` (operator tokens),
`compiler.rs`, `types/eval_graph.rs`, `types/runtime_value.rs`,
`runtime_engine.rs` and `runtime.rs`.

Modelling conventions:
* IEEE f64 values are modelled as exact rationals (`ℚ`); the concrete
  arithmetic exercised by the theorems stays within the range where f64
  arithmetic is exact, with `f64::EPSILON` carried as the rational 2^-52.
* Rust `as` casts between floats and machine integers are modelled by
  truncation toward zero with saturation at the integer bounds, matching
  Rust's float-to-int cast semantics.
* Machine-integer arithmetic (`i32` addition in the optimizer's merge map,
  `u32` summation in the session driver) is modelled with explicit
  wrap-around (two's-complement / modular), matching release-build Rust.
* Fallible Rust functions returning `Result<_, String>` become
  `Except String _`; panics (`unreachable!`, `unwrap`) become errors.
* General recursion (the constant-folding visitor, which re-enters itself
  on freshly synthesized subtrees, and the graph-walking evaluator) is
  given an explicit fuel parameter; running out of fuel is an error that
  never fires at the fuel values used by the theorems.
-/

-- The Batteries rational primitives are `@[irreducible]` by default; the
-- concrete evaluations below are proved by definitional reduction, so they
-- are restored to their (kernel-irrelevant) reducible status here.
unseal Rat.mul Rat.add Rat.sub Rat.inv

namespace Oxidice

-- ==========================================
-- types/expr.rs: comparison and binary operators of the surface language
-- ==========================================

inductive CompareOp where
  | Equal
  | NotEqual
  | Less
  | LessEqual
  | Greater
  | GreaterEqual
deriving DecidableEq, Repr

inductive BinOp where
  | Add
  | Sub
  | Mul
  | Div
  | Mod
  | Idiv
  | ListMul
deriving DecidableEq, Repr

-- ==========================================
-- types/hir.rs: the typed intermediate representation
-- ==========================================

mutual

inductive NumberType where
  | Constant (v : ℚ)
  | DicePool (d : DicePoolType)
  | SuccessPool (s : SuccessPoolType)
  | NumberBinary (b : NumberBinaryType)
  | NumberFunction (f : NumberFunctionType)
  | Neg (n : NumberType)

inductive DicePoolType where
  | Standard (count sides : NumberType)
  | Fudge (count : NumberType)
  | Coin (count : NumberType)
  | KeepHigh (pool : DicePoolType) (n : NumberType)
  | KeepLow (pool : DicePoolType) (n : NumberType)
  | DropHigh (pool : DicePoolType) (n : NumberType)
  | DropLow (pool : DicePoolType) (n : NumberType)
  | Min (pool : DicePoolType) (n : NumberType)
  | Max (pool : DicePoolType) (n : NumberType)
  | Explode (pool : DicePoolType) (param : Option ModParam) (lim : Option Limit)
  | CompoundExplode (pool : DicePoolType) (param : Option ModParam) (lim : Option Limit)
  | Reroll (pool : DicePoolType) (param : ModParam) (lim : Option Limit)
  | SubtractFailures (pool : DicePoolType) (param : ModParam)

inductive SuccessPoolType where
  | CountSuccessesFromDicePool (pool : DicePoolType) (param : ModParam)
  | DeductFailuresFromDicePool (pool : DicePoolType) (param : ModParam)
  | CountSuccesses (pool : SuccessPoolType) (param : ModParam)
  | DeductFailures (pool : SuccessPoolType) (param : ModParam)

inductive NumberBinaryType where
  | Add (l r : NumberType)
  | Subtract (l r : NumberType)
  | Multiply (l r : NumberType)
  | Divide (l r : NumberType)
  | IntDivide (l r : NumberType)
  | Modulo (l r : NumberType)

inductive NumberFunctionType where
  | Floor (n : NumberType)
  | Ceil (n : NumberType)
  | Round (n : NumberType)
  | Abs (n : NumberType)
  | Max (l : ListType)
  | Min (l : ListType)
  | Sum (l : ListType)
  | Avg (l : ListType)
  | Len (l : ListType)

inductive ListType where
  | Explicit (elements : List NumberType)
  | ListFunction (f : ListFunctionType)
  | ListBinary (b : ListBinaryType)

inductive ListBinaryType where
  | AddList (l r : ListType)
  | Add (l : ListType) (n : NumberType)
  | Multiply (l : ListType) (n : NumberType)
  | Subtract (l : ListType) (n : NumberType)
  | SubtractReverse (n : NumberType) (l : ListType)
  | Divide (l : ListType) (n : NumberType)
  | DivideReverse (n : NumberType) (l : ListType)
  | IntDivide (l : ListType) (n : NumberType)
  | IntDivideReverse (n : NumberType) (l : ListType)
  | Modulo (l : ListType) (n : NumberType)
  | ModuloReverse (n : NumberType) (l : ListType)

inductive ListFunctionType where
  | Floor (l : ListType)
  | Ceil (l : ListType)
  | Round (l : ListType)
  | Abs (l : ListType)
  | Max (l : ListType) (n : NumberType)
  | Min (l : ListType) (n : NumberType)
  | Sort (l : ListType)
  | SortDesc (l : ListType)
  | ToListFromDicePool (d : DicePoolType)
  | ToListFromSuccessPool (s : SuccessPoolType)
  | Filter (l : ListType) (param : ModParam)

inductive ModParam where
  | mk (operator : CompareOp) (value : NumberType)

inductive Limit where
  | mk (limit_times : Option NumberType) (limit_counts : Option NumberType)

end

inductive HIR where
  | Number (n : NumberType)
  | List (l : ListType)

def ModParam.operator : ModParam → CompareOp
  | .mk op _ => op

def ModParam.value : ModParam → NumberType
  | .mk _ v => v

def Limit.limit_times : Limit → Option NumberType
  | .mk t _ => t

def Limit.limit_counts : Limit → Option NumberType
  | .mk _ c => c

def NumberType.is_constant : NumberType → Bool
  | .Constant _ => true
  | _ => false

def ListType.is_explicit : ListType → Bool
  | .Explicit _ => true
  | _ => false

def ListType.is_constant_list : ListType → Bool
  | .Explicit elements => elements.all (fun e => e.is_constant)
  | _ => false

def ModParam.is_constant (mp : ModParam) : Bool :=
  mp.value.is_constant

-- ==========================================
-- Machine-arithmetic model: f64 as ℚ, casts, wrap-around integers
-- ==========================================

/-- Truncation toward zero of a rational, the rounding used by Rust `as`
casts from floats to machine integers. -/
def ratTrunc (q : ℚ) : ℤ :=
  if 0 ≤ q then ⌊q⌋ else ⌈q⌉

def i32Min : ℤ := -2147483648
def i32Max : ℤ := 2147483647
def i64Min : ℤ := -9223372036854775808
def i64Max : ℤ := 9223372036854775807

/-- Rust `f64 as i32`: truncate toward zero, saturating at the i32 bounds. -/
def f64AsI32 (q : ℚ) : ℤ :=
  max i32Min (min i32Max (ratTrunc q))

/-- Rust `(f64 as i64) as f64`: truncate toward zero, saturating at the i64
bounds, then back to a float (exact for the magnitudes exercised here). -/
def f64AsI64AsF64 (q : ℚ) : ℚ :=
  ((max i64Min (min i64Max (ratTrunc q)) : ℤ) : ℚ)

/-- Rust `f64 as usize` for a non-negative float: truncate toward zero. -/
def f64AsUsize (q : ℚ) : ℕ :=
  (ratTrunc q).toNat

/-- Two's-complement wrap-around into the i32 range, the release-build
behaviour of overflowing `i32` addition. -/
def wrap32 (z : ℤ) : ℤ :=
  (z + 2147483648) % 4294967296 - 2147483648

/-- Wrap-around into the u32 range, the release-build behaviour of
overflowing `u32` addition. -/
def u32wrap (n : ℕ) : ℕ :=
  n % 4294967296

/-- `std::f64::EPSILON` = 2^-52, used by the compare functions. -/
def f64Epsilon : ℚ := 1 / 4503599627370496

/-- Rust `f64::round`: round half away from zero. -/
def f64Round (q : ℚ) : ℚ :=
  if 0 ≤ q then (⌊q + 1/2⌋ : ℤ) else (⌈q - 1/2⌉ : ℤ)

/-- Rust `f64 %` (fmod): remainder with the sign of the dividend. -/
def f64Rem (a b : ℚ) : ℚ :=
  a - b * (ratTrunc (a / b) : ℤ)

/-- Order-faithful stand-in for `f64::NEG_INFINITY`: strictly below every
finite f64 value (max finite f64 < 2^1024). -/
def f64NegInfinity : ℚ := -(2 ^ 1024)

/-- Order-faithful stand-in for `f64::INFINITY`. -/
def f64Infinity : ℚ := 2 ^ 1024

def myCompare (a b : ℚ) : Ordering :=
  if a < b then .lt else if a = b then .eq else .gt

-- ==========================================
-- hir.rs: ModParam::get_compare_function (also runtime_engine.rs
-- get_compare_function; both use f64::EPSILON for (in)equality)
-- ==========================================

def getCompareFunction (op : CompareOp) (target : ℚ) (x : ℚ) : Bool :=
  match op with
  | .Equal => decide (|x - target| < f64Epsilon)
  | .NotEqual => decide (f64Epsilon ≤ |x - target|)
  | .Less => decide (x < target)
  | .LessEqual => decide (x ≤ target)
  | .Greater => decide (target < x)
  | .GreaterEqual => decide (target ≤ x)

-- ==========================================
-- Stable sort (Rust's `sort_by` is stable); insertion sort keeps equal
-- elements in their original relative order.
-- ==========================================

def insertSorted {α : Type} (cmp : α → α → Ordering) (x : α) : List α → List α
  | [] => [x]
  | y :: ys =>
    match cmp x y with
    | .gt => y :: insertSorted cmp x ys
    | _ => x :: y :: ys

def insertionSortBy {α : Type} (cmp : α → α → Ordering) : List α → List α
  | [] => []
  | x :: xs => insertSorted cmp x (insertionSortBy cmp xs)

-- ==========================================
-- optimizer/fold_binary_op.rs
-- ==========================================

/-- The `DiceType` merge key; its `Ord` mirrors the derived Rust ordering
(variant order `Standard < Fudge < Coin`, then fields lexicographically,
`false < true`). -/
inductive DiceType where
  | Standard (is_add : Bool) (sides : ℤ)
  | Fudge (is_add : Bool)
  | Coin (is_add : Bool)
deriving DecidableEq, Repr

def boolCmp : Bool → Bool → Ordering
  | false, false => .eq
  | false, true => .lt
  | true, false => .gt
  | true, true => .eq

def intCmp (a b : ℤ) : Ordering :=
  if a < b then .lt else if a = b then .eq else .gt

def DiceType.cmp : DiceType → DiceType → Ordering
  | .Standard a1 s1, .Standard a2 s2 => (boolCmp a1 a2).then (intCmp s1 s2)
  | .Standard _ _, _ => .lt
  | .Fudge _, .Standard _ _ => .gt
  | .Fudge a1, .Fudge a2 => boolCmp a1 a2
  | .Fudge _, .Coin _ => .lt
  | .Coin a1, .Coin a2 => boolCmp a1 a2
  | .Coin _, _ => .gt

def getConstValue : NumberType → ℚ
  | .Constant c => c
  | _ => 0

/-- `mergeable_dice`: a term merges only when it is a bare Standard/Fudge/Coin
pool whose count (and sides) are constants; any modifier layer returns none. -/
def mergeableDice (node : NumberType) (sign : ℚ) : Option (DiceType × ℤ) :=
  match node with
  | .DicePool dp =>
    match dp with
    | .Standard counts sides =>
      if counts.is_constant && sides.is_constant then
        let c := getConstValue counts
        let s := f64AsI32 (getConstValue sides)
        let c : ℤ := if 0 < c then f64AsI32 c else 0
        some (.Standard (decide (0 < sign)) s, c)
      else
        none
    | .Fudge counts =>
      if counts.is_constant then
        let c := getConstValue counts
        let c : ℤ := if 0 < c then f64AsI32 c else 0
        some (.Fudge (decide (0 < sign)), c)
      else
        none
    | .Coin counts =>
      if counts.is_constant then
        let c := getConstValue counts
        let c : ℤ := if 0 < c then f64AsI32 c else 0
        some (.Coin (decide (0 < sign)), c)
      else
        none
    | _ => none
  | _ => none

/-- Insertion into the ordered merge map (`BTreeMap<DiceType, i32>` with
`entry().or_insert(0); *entry += count`, the i32 addition wrapping). -/
def insertDice : List (DiceType × ℤ) → DiceType → ℤ → List (DiceType × ℤ)
  | [], key, count => [(key, wrap32 count)]
  | (k, v) :: rest, key, count =>
    match DiceType.cmp key k with
    | .lt => (key, wrap32 count) :: (k, v) :: rest
    | .eq => (k, wrap32 (v + count)) :: rest
    | .gt => (k, v) :: insertDice rest key count

def diceTermOfEntry : DiceType × ℤ → NumberType × ℚ
  | (.Standard is_add sides, count) =>
    (.DicePool (.Standard (.Constant (count : ℚ)) (.Constant (sides : ℚ))),
      if is_add then 1 else -1)
  | (.Fudge is_add, count) =>
    (.DicePool (.Fudge (.Constant (count : ℚ))), if is_add then 1 else -1)
  | (.Coin is_add, count) =>
    (.DicePool (.Coin (.Constant (count : ℚ))), if is_add then 1 else -1)

/-- `merge_terms`: split off the constant-shaped bare dice pools into the
ordered map, sum their counts per key, and rebuild — merged pools first in
descending key order, unmergeable terms after, in their original order. -/
def mergeTerms (terms : List (NumberType × ℚ)) : List (NumberType × ℚ) :=
  let acc := terms.foldl
    (fun (acc : List (DiceType × ℤ) × List (NumberType × ℚ)) t =>
      match mergeableDice t.1 t.2 with
      | some (diceType, count) => (insertDice acc.1 diceType count, acc.2)
      | none => (acc.1, acc.2 ++ [t]))
    ([], [])
  let merged := acc.1.reverse.filterMap
    (fun e => if e.2 = 0 then none else some (diceTermOfEntry e))
  merged ++ acc.2

/-- `flatten_add_sub`: consume a tree of `+`/`-`/`Neg`, appending non-linear
terms with their sign and accumulating constants. -/
def flattenAddSub : NumberType → ℚ → List (NumberType × ℚ) → ℚ →
    List (NumberType × ℚ) × ℚ
  | .Constant c, sign, terms, acc => (terms, acc + c * sign)
  | .NumberBinary (.Add l r), sign, terms, acc =>
    let p := flattenAddSub l sign terms acc
    flattenAddSub r sign p.1 p.2
  | .NumberBinary (.Subtract l r), sign, terms, acc =>
    let p := flattenAddSub l sign terms acc
    flattenAddSub r (-sign) p.1 p.2
  | .Neg inner, sign, terms, acc => flattenAddSub inner (-sign) terms acc
  | other, sign, terms, acc => (terms ++ [(other, sign)], acc)

def rebuildAddTree : List (NumberType × ℚ) → NumberType
  | [] => .Constant 0
  | (first, firstSign) :: rest =>
    let current := if firstSign < 0 then NumberType.Neg first else first
    rest.foldl
      (fun cur t =>
        if 0 < t.2 then .NumberBinary (.Add cur t.1)
        else .NumberBinary (.Subtract cur t.1))
      current

def foldLinearAddSub (left right : NumberType) (isSubtract : Bool) :
    Except String (Option NumberType) :=
  let p1 := flattenAddSub left 1 [] 0
  let p2 := flattenAddSub right (if isSubtract then -1 else 1) p1.1 p1.2
  let terms := mergeTerms p2.1
  let constantAcc := p2.2
  if terms.isEmpty then
    .ok (some (.Constant constantAcc))
  else if constantAcc = 0 then
    .ok (some (rebuildAddTree terms))
  else
    let tree := rebuildAddTree terms
    if 0 < constantAcc then
      .ok (some (.NumberBinary (.Add tree (.Constant constantAcc))))
    else
      .ok (some (.NumberBinary (.Subtract tree (.Constant (-constantAcc)))))

def flattenMul : NumberType → List NumberType → ℚ → List NumberType × ℚ
  | .Constant c, terms, acc => (terms, acc * c)
  | .NumberBinary (.Multiply l r), terms, acc =>
    let p := flattenMul l terms acc
    flattenMul r p.1 p.2
  | other, terms, acc => (terms ++ [other], acc)

def rebuildMulTree : List NumberType → NumberType
  | [] => .Constant 1
  | first :: rest =>
    rest.foldl (fun cur item => .NumberBinary (.Multiply cur item)) first

def foldLinearMultiply (left right : NumberType) :
    Except String (Option NumberType) :=
  let p1 := flattenMul left [] 1
  let p2 := flattenMul right p1.1 p1.2
  let terms := p2.1
  let constantAcc := p2.2
  if constantAcc = 0 then
    .ok (some (.Constant 0))
  else if terms.isEmpty then
    .ok (some (.Constant constantAcc))
  else if constantAcc = 1 then
    .ok (some (rebuildMulTree terms))
  else
    .ok (some (.NumberBinary (.Multiply (rebuildMulTree terms)
      (.Constant constantAcc))))

/-- `fold_divide`: constant/constant folds; `(x÷c1)÷c2` collapses; a constant
zero divisor is a hard error; everything else is left unchanged. -/
def foldDivide (l r : NumberType) : Except String (Option NumberType) :=
  match r with
  | .Constant c2 =>
    if c2 = 0 then
      .error ("Division by zero")
    else
      match l with
      | .Constant c1 => .ok (some (.Constant (c1 / c2)))
      | .NumberBinary (.Divide inner (.Constant c1)) =>
        let newDivisor := c1 * c2
        if newDivisor = 0 then
          .error ("Division by zero after optimization")
        else
          .ok (some (.NumberBinary (.Divide inner (.Constant newDivisor))))
      | _ => .ok none
  | _ => .ok none

/-- `fold_binary_op`: dispatch to the linear builders, the division
optimizer, or plain constant folding for integer division and modulo. -/
def foldBinaryOp : NumberBinaryType → Except String (Option NumberType)
  | .Add l r => foldLinearAddSub l r false
  | .Subtract l r => foldLinearAddSub l r true
  | .Multiply l r => foldLinearMultiply l r
  | .Divide l r => foldDivide l r
  | .IntDivide l r =>
    match l, r with
    | .Constant c1, .Constant c2 =>
      if c2 = 0 then .error ("Integer division by zero")
      else .ok (some (.Constant ((⌊c1 / c2⌋ : ℤ) : ℚ)))
    | _, _ => .ok none
  | .Modulo l r =>
    match l, r with
    | .Constant c1, .Constant c2 =>
      if c2 = 0 then .error ("Modulo by zero")
      else .ok (some (.Constant (f64Rem c1 c2)))
    | _, _ => .ok none

-- ==========================================
-- optimizer/constant_fold.rs: helpers
-- ==========================================

def tryMapConst (n : NumberType) (f : ℚ → ℚ) : Option NumberType :=
  match n with
  | .Constant v => some (.Constant (f v))
  | _ => none

def foldListAggregate (l : ListType) (f : List ℚ → ℚ) : Option NumberType :=
  match l with
  | .Explicit vec =>
    match vec.mapM (fun item =>
        match item with
        | NumberType.Constant c => some c
        | _ => none) with
    | some constants => some (.Constant (f constants))
    | none => none
  | _ => none

def tryMapConstantList (l : ListType) (f : ℚ → ℚ) : Option ListType :=
  match l with
  | .Explicit vec =>
    (vec.mapM (fun item =>
        match item with
        | NumberType.Constant c => some (NumberType.Constant (f c))
        | _ => none)).map .Explicit
  | _ => none

def tryGetConstantValue : NumberType → Option ℚ
  | .Constant v => some v
  | _ => none

def tryGetConstantValues (l : ListType) : Option (List ℚ) :=
  match l with
  | .Explicit vec =>
    vec.mapM (fun item =>
      match item with
      | NumberType.Constant c => some c
      | _ => none)
  | _ => none

/-- `keep_elements_preserve_order` (optimizer copy): stable top-k / bottom-k
selection re-emitted in original element order. -/
def keepElementsPreserveOrder (values : List ℚ) (rawCount : ℚ)
    (keepHighest : Bool) : ListType :=
  if rawCount < 0 then .Explicit [] else
  let count := f64AsUsize rawCount
  if values.length ≤ count then
    .Explicit (values.map .Constant)
  else
    let indexed := values.enum
    let sorted := insertionSortBy
      (fun a b => if keepHighest then myCompare b.2 a.2 else myCompare a.2 b.2)
      indexed
    let topK := insertionSortBy (fun a b => compare a.1 b.1) (sorted.take count)
    .Explicit (topK.map (fun p => .Constant p.2))

/-- `fold_list_function`: list functions fold only on fully constant lists. -/
def foldListFunction (func : ListFunctionType) : Option ListType :=
  match func with
  | .Floor listBox => tryMapConstantList listBox (fun v => ((⌊v⌋ : ℤ) : ℚ))
  | .Ceil listBox => tryMapConstantList listBox (fun v => ((⌈v⌉ : ℤ) : ℚ))
  | .Round listBox => tryMapConstantList listBox f64Round
  | .Abs listBox => tryMapConstantList listBox (fun v => |v|)
  | .Max listBox numBox =>
    if listBox.is_constant_list && numBox.is_constant then
      match tryGetConstantValues listBox, tryGetConstantValue numBox with
      | some values, some counts => some (keepElementsPreserveOrder values counts true)
      | _, _ => none
    else none
  | .Min listBox numBox =>
    if listBox.is_constant_list && numBox.is_constant then
      match tryGetConstantValues listBox, tryGetConstantValue numBox with
      | some values, some counts => some (keepElementsPreserveOrder values counts false)
      | _, _ => none
    else none
  | .Sort listBox =>
    if listBox.is_constant_list then
      match tryGetConstantValues listBox with
      | some values =>
        some (.Explicit ((insertionSortBy myCompare values).map .Constant))
      | none => none
    else none
  | .SortDesc listBox =>
    if listBox.is_constant_list then
      match tryGetConstantValues listBox with
      | some values =>
        some (.Explicit ((insertionSortBy (fun a b => myCompare b a) values).map
          .Constant))
      | none => none
    else none
  | .Filter listBox param =>
    if listBox.is_constant_list && param.is_constant then
      match tryGetConstantValue param.value, tryGetConstantValues listBox with
      | some target, some values =>
        some (.Explicit ((values.filter
          (getCompareFunction param.operator target)).map .Constant))
      | _, _ => none
    else none
  | _ => none

/-- `fold_list_binary_op`: concatenation of two explicit lists, and
constant-list ⊕ constant broadcasts, with zero-divisor hard errors. -/
def foldListBinaryOp (op : ListBinaryType) : Except String (Option ListType) :=
  match op with
  | .AddList left right =>
    match left, right with
    | .Explicit leftVec, .Explicit rightVec =>
      .ok (some (.Explicit (leftVec ++ rightVec)))
    | _, _ => .ok none
  | .Add list num =>
    match tryGetConstantValue num with
    | none => .ok none
    | some n => .ok (tryMapConstantList list (fun v => v + n))
  | .Multiply list num =>
    match tryGetConstantValue num with
    | none => .ok none
    | some n => .ok (tryMapConstantList list (fun v => v * n))
  | .Subtract list num =>
    match tryGetConstantValue num with
    | none => .ok none
    | some n => .ok (tryMapConstantList list (fun v => v - n))
  | .SubtractReverse num list =>
    match tryGetConstantValue num with
    | none => .ok none
    | some n => .ok (tryMapConstantList list (fun v => n - v))
  | .Divide list num =>
    match tryGetConstantValue num with
    | none => .ok none
    | some n =>
      if n = 0 then .error ("Division by zero in list division")
      else .ok (tryMapConstantList list (fun v => v / n))
  | .DivideReverse num list =>
    match tryGetConstantValue num with
    | none => .ok none
    | some n =>
      match list with
      | .Explicit vec =>
        match vec.findIdx? (fun item =>
            match item with
            | NumberType.Constant v => decide (v = 0)
            | _ => false) with
        | some idx =>
          .error ("Division by zero in reverse list division at index " ++
            toString idx)
        | none => .ok (tryMapConstantList list (fun v => n / v))
      | _ => .ok (tryMapConstantList list (fun v => n / v))
  | .Modulo list num =>
    match tryGetConstantValue num with
    | none => .ok none
    | some n =>
      if n = 0 then .error ("Modulo by zero in list modulo")
      else .ok (tryMapConstantList list (fun v => f64Rem v n))
  | .ModuloReverse num list =>
    match tryGetConstantValue num with
    | none => .ok none
    | some n =>
      match list with
      | .Explicit vec =>
        match vec.findIdx? (fun item =>
            match item with
            | NumberType.Constant v => decide (v = 0)
            | _ => false) with
        | some idx =>
          .error ("Modulo by zero in reverse list modulo at index " ++
            toString idx)
        | none => .ok (tryMapConstantList list (fun v => f64Rem n v))
      | _ => .ok (tryMapConstantList list (fun v => f64Rem n v))
  | .IntDivide list num =>
    match tryGetConstantValue num with
    | none => .ok none
    | some n =>
      if n = 0 then .error ("Integer division by zero in list integer division")
      else .ok (tryMapConstantList list (fun v => ((⌊v / n⌋ : ℤ) : ℚ)))
  | .IntDivideReverse num list =>
    match tryGetConstantValue num with
    | none => .ok none
    | some n =>
      match list with
      | .Explicit vec =>
        match vec.findIdx? (fun item =>
            match item with
            | NumberType.Constant v => decide (v = 0)
            | _ => false) with
        | some idx =>
          .error ("Integer division by zero in reverse list integer division at index "
            ++ toString idx)
        | none => .ok (tryMapConstantList list (fun v => ((⌊n / v⌋ : ℤ) : ℚ)))
      | _ => .ok (tryMapConstantList list (fun v => ((⌊n / v⌋ : ℤ) : ℚ)))

/-- `fold_dice_pool`: truncate constant counts/sides to integers; a constant
count or sides that truncates to ≤ 0 collapses the pool to `Constant 0`. -/
def foldDicePool (dicePool : DicePoolType) : Option NumberType :=
  match dicePool with
  | .Standard countBox sideBox =>
    if !countBox.is_constant && !sideBox.is_constant then none else
    let countStep : Option (Option ℚ) :=
      if countBox.is_constant then
        let count := getConstValue countBox
        let newCount := f64AsI64AsF64 count
        if newCount ≤ 0 then none
        else if count ≠ newCount then some (some newCount)
        else some none
      else some none
    match countStep with
    | none => some (.Constant 0)
    | some newCount =>
      let sideStep : Option (Option ℚ) :=
        if sideBox.is_constant then
          let side := getConstValue sideBox
          let newSide := f64AsI64AsF64 side
          if newSide ≤ 0 then none
          else if side ≠ newSide then some (some newSide)
          else some none
        else some none
      match sideStep with
      | none => some (.Constant 0)
      | some newSide =>
        if newCount = none && newSide = none then none
        else
          let newCountBox := match newCount with
            | some nc => NumberType.Constant nc
            | none => countBox
          let newSideBox := match newSide with
            | some ns => NumberType.Constant ns
            | none => sideBox
          some (.DicePool (.Standard newCountBox newSideBox))
  | .Fudge countBox =>
    if countBox.is_constant then
      let count := getConstValue countBox
      let newCount := f64AsI64AsF64 count
      if 0 < newCount then
        if newCount = count then none
        else some (.DicePool (.Fudge (.Constant newCount)))
      else some (.Constant 0)
    else none
  | .Coin countBox =>
    if countBox.is_constant then
      let count := getConstValue countBox
      let newCount := f64AsI64AsF64 count
      if 0 < newCount then
        if count = newCount then none
        else some (.DicePool (.Coin (.Constant newCount)))
      else some (.Constant 0)
    else none
  | _ => none

-- ==========================================
-- optimizer/constant_fold.rs: the bottom-up folding visitor
-- (hir_rewriter.rs `HirVisitor`: visit children, then visit self).
-- The pass re-enters itself on the tree synthesized for `sum` of an
-- explicit list, so the whole visitor carries an explicit fuel.
-- ==========================================

mutual

def cfHir : ℕ → HIR → Except String HIR
  | 0, _ => .error ("fuel exhausted")
  | fuel + 1, .Number n => do
    let n' ← cfNumber fuel n
    .ok (.Number n')
  | fuel + 1, .List l => do
    let l' ← cfList fuel l
    .ok (.List l')

def cfNumber : ℕ → NumberType → Except String NumberType
  | 0, _ => .error ("fuel exhausted")
  | fuel + 1, n => do
    let n' ← cfNumberChildren fuel n
    cfNumberSelf fuel n'

def cfNumberChildren : ℕ → NumberType → Except String NumberType
  | 0, _ => .error ("fuel exhausted")
  | _ + 1, .Constant c => .ok (.Constant c)
  | fuel + 1, .DicePool d => do
    let d' ← cfDicePool fuel d
    .ok (.DicePool d')
  | fuel + 1, .SuccessPool s => do
    let s' ← cfSuccessPool fuel s
    .ok (.SuccessPool s')
  | fuel + 1, .NumberBinary b => do
    let b' ← cfNumberBinaryChildren fuel b
    .ok (.NumberBinary b')
  | fuel + 1, .NumberFunction f => do
    let f' ← cfNumberFunctionChildren fuel f
    .ok (.NumberFunction f')
  | fuel + 1, .Neg x => do
    let x' ← cfNumber fuel x
    .ok (.Neg x')

/-- `ConstantFolder::visit_number_self`. -/
def cfNumberSelf : ℕ → NumberType → Except String NumberType
  | 0, _ => .error ("fuel exhausted")
  | fuel + 1, n =>
    match n with
    | .Neg inner =>
      match inner with
      | .Constant v => .ok (.Constant (-v))
      | _ => .ok n
    | .NumberBinary binOp => do
      match ← foldBinaryOp binOp with
      | some v => .ok v
      | none => .ok n
    | .NumberFunction func => do
      match ← foldNumberFunction fuel func with
      | some v => .ok v
      | none => .ok n
    | .DicePool dicePool =>
      match foldDicePool dicePool with
      | some v => .ok v
      | none => .ok n
    | .Constant _ => .ok n
    | .SuccessPool _ => .ok n

/-- `fold_number_function`; the `Sum` arm rebuilds a non-constant explicit
list as an `Add` spine and re-runs the folding pass on it (a fold error
there is swallowed by `.ok()?`, leaving the node unfolded). -/
def foldNumberFunction : ℕ → NumberFunctionType →
    Except String (Option NumberType)
  | 0, _ => .error ("fuel exhausted")
  | fuel + 1, func =>
    match func with
    | .Floor inner => .ok (tryMapConst inner (fun v => ((⌊v⌋ : ℤ) : ℚ)))
    | .Ceil inner => .ok (tryMapConst inner (fun v => ((⌈v⌉ : ℤ) : ℚ)))
    | .Round inner => .ok (tryMapConst inner f64Round)
    | .Abs inner => .ok (tryMapConst inner (fun v => |v|))
    | .Sum listBox =>
      match foldListAggregate listBox (fun nums => nums.foldl (· + ·) 0) with
      | some v => .ok (some v)
      | none =>
        match listBox with
        | .Explicit vec =>
          match vec with
          | [] => .ok none
          | first :: rest =>
            let sumTree := rest.foldl
              (fun acc item => NumberType.NumberBinary (.Add acc item)) first
            match cfHir fuel (.Number sumTree) with
            | .error _ => .ok none
            | .ok optimizedHir =>
              match optimizedHir with
              | .Number t => .ok (some t)
              | .List _ => .ok none
        | _ => .ok none
    | .Avg listBox =>
      .ok (foldListAggregate listBox (fun nums =>
        if nums.isEmpty then 0 else nums.sum / (nums.length : ℚ)))
    | .Max listBox =>
      .ok (foldListAggregate listBox (fun nums =>
        nums.foldl max f64NegInfinity))
    | .Min listBox =>
      .ok (foldListAggregate listBox (fun nums =>
        nums.foldl min f64Infinity))
    | .Len listBox =>
      match listBox with
      | .Explicit vec => .ok (some (.Constant (vec.length : ℚ)))
      | _ => .ok none

def cfDicePool : ℕ → DicePoolType → Except String DicePoolType
  | 0, _ => .error ("fuel exhausted")
  | fuel + 1, .Standard x y => do
    let x' ← cfNumber fuel x
    let y' ← cfNumber fuel y
    .ok (.Standard x' y')
  | fuel + 1, .Fudge x => do
    let x' ← cfNumber fuel x
    .ok (.Fudge x')
  | fuel + 1, .Coin x => do
    let x' ← cfNumber fuel x
    .ok (.Coin x')
  | fuel + 1, .KeepHigh d n => do
    let d' ← cfDicePool fuel d
    let n' ← cfNumber fuel n
    .ok (.KeepHigh d' n')
  | fuel + 1, .KeepLow d n => do
    let d' ← cfDicePool fuel d
    let n' ← cfNumber fuel n
    .ok (.KeepLow d' n')
  | fuel + 1, .DropHigh d n => do
    let d' ← cfDicePool fuel d
    let n' ← cfNumber fuel n
    .ok (.DropHigh d' n')
  | fuel + 1, .DropLow d n => do
    let d' ← cfDicePool fuel d
    let n' ← cfNumber fuel n
    .ok (.DropLow d' n')
  | fuel + 1, .Min d n => do
    let d' ← cfDicePool fuel d
    let n' ← cfNumber fuel n
    .ok (.Min d' n')
  | fuel + 1, .Max d n => do
    let d' ← cfDicePool fuel d
    let n' ← cfNumber fuel n
    .ok (.Max d' n')
  | fuel + 1, .Explode d mp lim => do
    let d' ← cfDicePool fuel d
    let mp' ← match mp with
      | some m => do
        let m' ← cfModParam fuel m
        pure (some m')
      | none => pure none
    let lim' ← match lim with
      | some l => do
        let l' ← cfLimit fuel l
        pure (some l')
      | none => pure none
    .ok (.Explode d' mp' lim')
  | fuel + 1, .CompoundExplode d mp lim => do
    let d' ← cfDicePool fuel d
    let mp' ← match mp with
      | some m => do
        let m' ← cfModParam fuel m
        pure (some m')
      | none => pure none
    let lim' ← match lim with
      | some l => do
        let l' ← cfLimit fuel l
        pure (some l')
      | none => pure none
    .ok (.CompoundExplode d' mp' lim')
  | fuel + 1, .Reroll d mp lim => do
    let d' ← cfDicePool fuel d
    let mp' ← cfModParam fuel mp
    let lim' ← match lim with
      | some l => do
        let l' ← cfLimit fuel l
        pure (some l')
      | none => pure none
    .ok (.Reroll d' mp' lim')
  | fuel + 1, .SubtractFailures d mp => do
    let d' ← cfDicePool fuel d
    let mp' ← cfModParam fuel mp
    .ok (.SubtractFailures d' mp')

def cfSuccessPool : ℕ → SuccessPoolType → Except String SuccessPoolType
  | 0, _ => .error ("fuel exhausted")
  | fuel + 1, .CountSuccessesFromDicePool d mp => do
    let d' ← cfDicePool fuel d
    let mp' ← cfModParam fuel mp
    .ok (.CountSuccessesFromDicePool d' mp')
  | fuel + 1, .DeductFailuresFromDicePool d mp => do
    let d' ← cfDicePool fuel d
    let mp' ← cfModParam fuel mp
    .ok (.DeductFailuresFromDicePool d' mp')
  | fuel + 1, .CountSuccesses sp mp => do
    let sp' ← cfSuccessPool fuel sp
    let mp' ← cfModParam fuel mp
    .ok (.CountSuccesses sp' mp')
  | fuel + 1, .DeductFailures sp mp => do
    let sp' ← cfSuccessPool fuel sp
    let mp' ← cfModParam fuel mp
    .ok (.DeductFailures sp' mp')

def cfNumberBinaryChildren : ℕ → NumberBinaryType →
    Except String NumberBinaryType
  | 0, _ => .error ("fuel exhausted")
  | fuel + 1, .Add l r => do
    let l' ← cfNumber fuel l
    let r' ← cfNumber fuel r
    .ok (.Add l' r')
  | fuel + 1, .Subtract l r => do
    let l' ← cfNumber fuel l
    let r' ← cfNumber fuel r
    .ok (.Subtract l' r')
  | fuel + 1, .Multiply l r => do
    let l' ← cfNumber fuel l
    let r' ← cfNumber fuel r
    .ok (.Multiply l' r')
  | fuel + 1, .Divide l r => do
    let l' ← cfNumber fuel l
    let r' ← cfNumber fuel r
    .ok (.Divide l' r')
  | fuel + 1, .IntDivide l r => do
    let l' ← cfNumber fuel l
    let r' ← cfNumber fuel r
    .ok (.IntDivide l' r')
  | fuel + 1, .Modulo l r => do
    let l' ← cfNumber fuel l
    let r' ← cfNumber fuel r
    .ok (.Modulo l' r')

def cfNumberFunctionChildren : ℕ → NumberFunctionType →
    Except String NumberFunctionType
  | 0, _ => .error ("fuel exhausted")
  | fuel + 1, .Floor n => do
    let n' ← cfNumber fuel n
    .ok (.Floor n')
  | fuel + 1, .Ceil n => do
    let n' ← cfNumber fuel n
    .ok (.Ceil n')
  | fuel + 1, .Round n => do
    let n' ← cfNumber fuel n
    .ok (.Round n')
  | fuel + 1, .Abs n => do
    let n' ← cfNumber fuel n
    .ok (.Abs n')
  | fuel + 1, .Max l => do
    let l' ← cfList fuel l
    .ok (.Max l')
  | fuel + 1, .Min l => do
    let l' ← cfList fuel l
    .ok (.Min l')
  | fuel + 1, .Sum l => do
    let l' ← cfList fuel l
    .ok (.Sum l')
  | fuel + 1, .Avg l => do
    let l' ← cfList fuel l
    .ok (.Avg l')
  | fuel + 1, .Len l => do
    let l' ← cfList fuel l
    .ok (.Len l')

def cfList : ℕ → ListType → Except String ListType
  | 0, _ => .error ("fuel exhausted")
  | fuel + 1, l => do
    let l' ← cfListChildren fuel l
    cfListSelf fuel l'

def cfListChildren : ℕ → ListType → Except String ListType
  | 0, _ => .error ("fuel exhausted")
  | fuel + 1, .Explicit vec => do
    let vec' ← vec.mapM (cfNumber fuel)
    .ok (.Explicit vec')
  | fuel + 1, .ListFunction lf => do
    let lf' ← cfListFunctionChildren fuel lf
    .ok (.ListFunction lf')
  | fuel + 1, .ListBinary lb => do
    let lb' ← cfListBinaryChildren fuel lb
    .ok (.ListBinary lb')

/-- `ConstantFolder::visit_list_self`. -/
def cfListSelf : ℕ → ListType → Except String ListType
  | 0, _ => .error ("fuel exhausted")
  | _ + 1, l =>
    match l with
    | .ListFunction listFunc =>
      match foldListFunction listFunc with
      | some v => .ok v
      | none => .ok l
    | .ListBinary listBinOp => do
      match ← foldListBinaryOp listBinOp with
      | some v => .ok v
      | none => .ok l
    | .Explicit _ => .ok l

def cfListFunctionChildren : ℕ → ListFunctionType →
    Except String ListFunctionType
  | 0, _ => .error ("fuel exhausted")
  | fuel + 1, .Floor l => do
    let l' ← cfList fuel l
    .ok (.Floor l')
  | fuel + 1, .Ceil l => do
    let l' ← cfList fuel l
    .ok (.Ceil l')
  | fuel + 1, .Round l => do
    let l' ← cfList fuel l
    .ok (.Round l')
  | fuel + 1, .Abs l => do
    let l' ← cfList fuel l
    .ok (.Abs l')
  | fuel + 1, .Sort l => do
    let l' ← cfList fuel l
    .ok (.Sort l')
  | fuel + 1, .SortDesc l => do
    let l' ← cfList fuel l
    .ok (.SortDesc l')
  | fuel + 1, .Max l n => do
    let l' ← cfList fuel l
    let n' ← cfNumber fuel n
    .ok (.Max l' n')
  | fuel + 1, .Min l n => do
    let l' ← cfList fuel l
    let n' ← cfNumber fuel n
    .ok (.Min l' n')
  | fuel + 1, .ToListFromDicePool d => do
    let d' ← cfDicePool fuel d
    .ok (.ToListFromDicePool d')
  | fuel + 1, .ToListFromSuccessPool s => do
    let s' ← cfSuccessPool fuel s
    .ok (.ToListFromSuccessPool s')
  | fuel + 1, .Filter l mp => do
    let l' ← cfList fuel l
    let mp' ← cfModParam fuel mp
    .ok (.Filter l' mp')

def cfListBinaryChildren : ℕ → ListBinaryType → Except String ListBinaryType
  | 0, _ => .error ("fuel exhausted")
  | fuel + 1, .AddList l1 l2 => do
    let l1' ← cfList fuel l1
    let l2' ← cfList fuel l2
    .ok (.AddList l1' l2')
  | fuel + 1, .Add l n => do
    let l' ← cfList fuel l
    let n' ← cfNumber fuel n
    .ok (.Add l' n')
  | fuel + 1, .Multiply l n => do
    let l' ← cfList fuel l
    let n' ← cfNumber fuel n
    .ok (.Multiply l' n')
  | fuel + 1, .Subtract l n => do
    let l' ← cfList fuel l
    let n' ← cfNumber fuel n
    .ok (.Subtract l' n')
  | fuel + 1, .Divide l n => do
    let l' ← cfList fuel l
    let n' ← cfNumber fuel n
    .ok (.Divide l' n')
  | fuel + 1, .IntDivide l n => do
    let l' ← cfList fuel l
    let n' ← cfNumber fuel n
    .ok (.IntDivide l' n')
  | fuel + 1, .Modulo l n => do
    let l' ← cfList fuel l
    let n' ← cfNumber fuel n
    .ok (.Modulo l' n')
  | fuel + 1, .SubtractReverse n l => do
    let n' ← cfNumber fuel n
    let l' ← cfList fuel l
    .ok (.SubtractReverse n' l')
  | fuel + 1, .DivideReverse n l => do
    let n' ← cfNumber fuel n
    let l' ← cfList fuel l
    .ok (.DivideReverse n' l')
  | fuel + 1, .IntDivideReverse n l => do
    let n' ← cfNumber fuel n
    let l' ← cfList fuel l
    .ok (.IntDivideReverse n' l')
  | fuel + 1, .ModuloReverse n l => do
    let n' ← cfNumber fuel n
    let l' ← cfList fuel l
    .ok (.ModuloReverse n' l')

def cfModParam : ℕ → ModParam → Except String ModParam
  | 0, _ => .error ("fuel exhausted")
  | fuel + 1, mp => do
    let v' ← cfNumber fuel mp.value
    .ok (.mk mp.operator v')

def cfLimit : ℕ → Limit → Except String Limit
  | 0, _ => .error ("fuel exhausted")
  | fuel + 1, lim => do
    let t' ← match lim.limit_times with
      | some n => do
        let n' ← cfNumber fuel n
        pure (some n')
      | none => pure none
    let c' ← match lim.limit_counts with
      | some n => do
        let n' ← cfNumber fuel n
        pure (some n')
      | none => pure none
    .ok (.mk t' c')

end

/-- `constant_fold_hir`, the optimizer entry point, at a given fuel. -/
def constantFoldHir (fuel : ℕ) (hir : HIR) : Except String HIR :=
  cfHir fuel hir

-- ==========================================
-- grammar.rs: `parse_bin_op_mul_div` — the product-level operator tokens,
-- tried in order `//`, `/`, `**`, `*`, `%` (winnow `alt`).
-- ==========================================

def parseBinOpMulDiv : List Char → Option (BinOp × List Char)
  | '/' :: '/' :: rest => some (.Idiv, rest)
  | '/' :: rest => some (.Div, rest)
  | '*' :: '*' :: rest => some (.ListMul, rest)
  | '*' :: rest => some (.Mul, rest)
  | '%' :: rest => some (.Mod, rest)
  | _ => none

-- ==========================================
-- lower.rs: `lower_binary` — the shape dispatch on the two lowered
-- operands (the match block of the source; operands arrive already
-- lowered to HIR).
-- ==========================================

/-- The `ListMul` (`**`) arm of `lower_binary`: both sides are folded, the
list must be explicit and the count a positive constant, and the list is
repeated in place. -/
def lowerListMul (fuel : ℕ) (list : ListType) (times : NumberType) :
    Except String HIR := do
  let listH ← constantFoldHir fuel (.List list)
  let list ← match listH with
    | .List l => pure l
    | _ => .error ("unreachable")
  let timesH ← constantFoldHir fuel (.Number times)
  let times ← match timesH with
    | .Number n => pure n
    | _ => .error ("unreachable")
  if !list.is_explicit || !times.is_constant then
    .error ("List multiplication can only be applied to explicit list and constant number")
  else
    match times with
    | .Constant val =>
      if 0 < f64AsI32 val then
        let timesVal := f64AsUsize val
        match list with
        | .Explicit vals =>
          .ok (.List (.Explicit (List.flatten (List.replicate timesVal vals))))
        | _ => .error ("unreachable")
      else
        .error ("List multiplication times must be positive")
    | _ => .error ("unreachable")

def lowerBinary (fuel : ℕ) (lhsHir : HIR) (op : BinOp) (rhsHir : HIR) :
    Except String HIR :=
  match lhsHir, op, rhsHir with
  | .Number l, .Add, .Number r => .ok (.Number (.NumberBinary (.Add l r)))
  | .Number l, .Sub, .Number r => .ok (.Number (.NumberBinary (.Subtract l r)))
  | .Number l, .Mul, .Number r => .ok (.Number (.NumberBinary (.Multiply l r)))
  | .Number l, .Div, .Number r => .ok (.Number (.NumberBinary (.Divide l r)))
  | .Number l, .Mod, .Number r => .ok (.Number (.NumberBinary (.Modulo l r)))
  | .Number l, .Idiv, .Number r => .ok (.Number (.NumberBinary (.IntDivide l r)))
  | .List l, .Add, .List r => .ok (.List (.ListBinary (.AddList l r)))
  | .List list, .ListMul, .Number times => lowerListMul fuel list times
  | .Number times, .ListMul, .List list => lowerListMul fuel list times
  | .List list, .Add, .Number num => .ok (.List (.ListBinary (.Add list num)))
  | .Number num, .Add, .List list => .ok (.List (.ListBinary (.Add list num)))
  | .List list, .Mul, .Number num => .ok (.List (.ListBinary (.Multiply list num)))
  | .Number num, .Mul, .List list => .ok (.List (.ListBinary (.Multiply list num)))
  | .List list, .Sub, .Number num => .ok (.List (.ListBinary (.Subtract list num)))
  | .Number num, .Sub, .List list =>
    .ok (.List (.ListBinary (.SubtractReverse num list)))
  | .List list, .Div, .Number num => .ok (.List (.ListBinary (.Divide list num)))
  | .Number num, .Div, .List list =>
    .ok (.List (.ListBinary (.DivideReverse num list)))
  | .List list, .Idiv, .Number num =>
    .ok (.List (.ListBinary (.IntDivide list num)))
  | .Number num, .Idiv, .List list =>
    .ok (.List (.ListBinary (.IntDivideReverse num list)))
  | .List list, .Mod, .Number num => .ok (.List (.ListBinary (.Modulo list num)))
  | .Number num, .Mod, .List list =>
    .ok (.List (.ListBinary (.ModuloReverse num list)))
  | .Number _, .ListMul, .Number _ =>
    .error ("List multiplication is only supported between a list and a number")
  | .List _, .ListMul, .List _ =>
    .error ("List multiplication is only supported between a list and a number")
  | .List _, .Sub, .List _ =>
    .error ("Only addition is supported between two lists")
  | .List _, .Mul, .List _ =>
    .error ("Only addition is supported between two lists")
  | .List _, .Div, .List _ =>
    .error ("Only addition is supported between two lists")
  | .List _, .Idiv, .List _ =>
    .error ("Only addition is supported between two lists")
  | .List _, .Mod, .List _ =>
    .error ("Only addition is supported between two lists")

-- ==========================================
-- types/eval_graph.rs: the flat evaluation graph
-- ==========================================

structure ModParamNode where
  operator : CompareOp
  value : ℕ
deriving Repr

structure LimitNode where
  limit_times : Option ℕ
  limit_counts : Option ℕ
deriving Repr

inductive EvalNode where
  | Constant (v : ℚ)
  | ListConstruct (elements : List ℕ)
  | NumNegate (n : ℕ)
  | NumAdd (l r : ℕ)
  | NumSubtract (l r : ℕ)
  | NumMultiply (l r : ℕ)
  | NumDivide (l r : ℕ)
  | NumIntDivide (l r : ℕ)
  | NumModulo (l r : ℕ)
  | Concat (l r : ℕ)
  | ListAdd (l n : ℕ)
  | ListMultiply (l n : ℕ)
  | ListSubtract (l n : ℕ)
  | ListSubtractReverse (n l : ℕ)
  | ListDivide (l n : ℕ)
  | ListDivideReverse (n l : ℕ)
  | ListIntDivide (l n : ℕ)
  | ListIntDivideReverse (n l : ℕ)
  | ListModulo (l n : ℕ)
  | ListModuloReverse (n l : ℕ)
  | NumFloor (n : ℕ)
  | NumCeil (n : ℕ)
  | NumRound (n : ℕ)
  | NumAbs (n : ℕ)
  | NumMax (l : ℕ)
  | NumMin (l : ℕ)
  | NumSum (l : ℕ)
  | NumAvg (l : ℕ)
  | NumLen (l : ℕ)
  | ListFloor (l : ℕ)
  | ListCeil (l : ℕ)
  | ListRound (l : ℕ)
  | ListAbs (l : ℕ)
  | ListMax (l n : ℕ)
  | ListMin (l n : ℕ)
  | ListSort (l : ℕ)
  | ListSortDesc (l : ℕ)
  | ListToListFromDicePool (d : ℕ)
  | ListToListFromSuccessPool (s : ℕ)
  | ListFilter (l : ℕ) (param : ModParamNode)
  | DiceStandard (count sides : ℕ)
  | DiceFudge (count : ℕ)
  | DiceCoin (count : ℕ)
  | DiceKeepHigh (source param : ℕ)
  | DiceKeepLow (source param : ℕ)
  | DiceDropHigh (source param : ℕ)
  | DiceDropLow (source param : ℕ)
  | DiceMin (source t : ℕ)
  | DiceMax (source t : ℕ)
  | DiceExplode (source : ℕ) (p : Option ModParamNode) (lim : Option LimitNode)
  | DiceCompoundExplode (source : ℕ) (p : Option ModParamNode)
      (lim : Option LimitNode)
  | DiceReroll (source : ℕ) (p : ModParamNode) (lim : Option LimitNode)
  | DiceSubtractFailures (source : ℕ) (p : ModParamNode)
  | DiceCountSuccessesFromDicePool (source : ℕ) (p : ModParamNode)
  | DiceDeductFailuresFromDicePool (source : ℕ) (p : ModParamNode)
  | DiceCountSuccesses (source : ℕ) (p : ModParamNode)
  | DiceDeductFailures (source : ℕ) (p : ModParamNode)
deriving Repr

structure EvalGraph where
  nodes : List EvalNode
  root : ℕ

-- ==========================================
-- compiler.rs: flatten the HIR into the evaluation graph;
-- `push` appends a node and returns its index as its id.
-- ==========================================

def push (nodes : List EvalNode) (node : EvalNode) : List EvalNode × ℕ :=
  (nodes ++ [node], nodes.length)

mutual

def compileNumber : NumberType → List EvalNode → List EvalNode × ℕ
  | .Constant v, nodes => push nodes (.Constant v)
  | .DicePool pool, nodes => compileDicePool pool nodes
  | .SuccessPool pool, nodes => compileSuccessPool pool nodes
  | .NumberBinary bin, nodes =>
    match bin with
    | .Add l r =>
      let p1 := compileNumber l nodes
      let p2 := compileNumber r p1.1
      push p2.1 (.NumAdd p1.2 p2.2)
    | .Subtract l r =>
      let p1 := compileNumber l nodes
      let p2 := compileNumber r p1.1
      push p2.1 (.NumSubtract p1.2 p2.2)
    | .Multiply l r =>
      let p1 := compileNumber l nodes
      let p2 := compileNumber r p1.1
      push p2.1 (.NumMultiply p1.2 p2.2)
    | .Divide l r =>
      let p1 := compileNumber l nodes
      let p2 := compileNumber r p1.1
      push p2.1 (.NumDivide p1.2 p2.2)
    | .IntDivide l r =>
      let p1 := compileNumber l nodes
      let p2 := compileNumber r p1.1
      push p2.1 (.NumIntDivide p1.2 p2.2)
    | .Modulo l r =>
      let p1 := compileNumber l nodes
      let p2 := compileNumber r p1.1
      push p2.1 (.NumModulo p1.2 p2.2)
  | .NumberFunction func, nodes =>
    match func with
    | .Floor n =>
      let p := compileNumber n nodes
      push p.1 (.NumFloor p.2)
    | .Ceil n =>
      let p := compileNumber n nodes
      push p.1 (.NumCeil p.2)
    | .Round n =>
      let p := compileNumber n nodes
      push p.1 (.NumRound p.2)
    | .Abs n =>
      let p := compileNumber n nodes
      push p.1 (.NumAbs p.2)
    | .Max list =>
      let p := compileList list nodes
      push p.1 (.NumMax p.2)
    | .Min list =>
      let p := compileList list nodes
      push p.1 (.NumMin p.2)
    | .Sum list =>
      let p := compileList list nodes
      push p.1 (.NumSum p.2)
    | .Avg list =>
      let p := compileList list nodes
      push p.1 (.NumAvg p.2)
    | .Len list =>
      let p := compileList list nodes
      push p.1 (.NumLen p.2)
  | .Neg n, nodes =>
    let p := compileNumber n nodes
    push p.1 (.NumNegate p.2)

def compileList : ListType → List EvalNode → List EvalNode × ℕ
  | .Explicit elements, nodes =>
    let p := compileNumberList elements nodes
    push p.1 (.ListConstruct p.2)
  | .ListBinary bin, nodes =>
    match bin with
    | .AddList l r =>
      let p1 := compileList l nodes
      let p2 := compileList r p1.1
      push p2.1 (.Concat p1.2 p2.2)
    | .Add l r =>
      let p1 := compileList l nodes
      let p2 := compileNumber r p1.1
      push p2.1 (.ListAdd p1.2 p2.2)
    | .Multiply l r =>
      let p1 := compileList l nodes
      let p2 := compileNumber r p1.1
      push p2.1 (.ListMultiply p1.2 p2.2)
    | .Subtract l r =>
      let p1 := compileList l nodes
      let p2 := compileNumber r p1.1
      push p2.1 (.ListSubtract p1.2 p2.2)
    | .Divide l r =>
      let p1 := compileList l nodes
      let p2 := compileNumber r p1.1
      push p2.1 (.ListDivide p1.2 p2.2)
    | .IntDivide l r =>
      let p1 := compileList l nodes
      let p2 := compileNumber r p1.1
      push p2.1 (.ListIntDivide p1.2 p2.2)
    | .Modulo l r =>
      let p1 := compileList l nodes
      let p2 := compileNumber r p1.1
      push p2.1 (.ListModulo p1.2 p2.2)
    | .SubtractReverse l r =>
      let p1 := compileNumber l nodes
      let p2 := compileList r p1.1
      push p2.1 (.ListSubtractReverse p1.2 p2.2)
    | .DivideReverse l r =>
      let p1 := compileNumber l nodes
      let p2 := compileList r p1.1
      push p2.1 (.ListDivideReverse p1.2 p2.2)
    | .IntDivideReverse l r =>
      let p1 := compileNumber l nodes
      let p2 := compileList r p1.1
      push p2.1 (.ListIntDivideReverse p1.2 p2.2)
    | .ModuloReverse l r =>
      let p1 := compileNumber l nodes
      let p2 := compileList r p1.1
      push p2.1 (.ListModuloReverse p1.2 p2.2)
  | .ListFunction func, nodes =>
    match func with
    | .Floor list =>
      let p := compileList list nodes
      push p.1 (.ListFloor p.2)
    | .Ceil list =>
      let p := compileList list nodes
      push p.1 (.ListCeil p.2)
    | .Round list =>
      let p := compileList list nodes
      push p.1 (.ListRound p.2)
    | .Abs list =>
      let p := compileList list nodes
      push p.1 (.ListAbs p.2)
    | .Max list count =>
      let p1 := compileList list nodes
      let p2 := compileNumber count p1.1
      push p2.1 (.ListMax p1.2 p2.2)
    | .Min list count =>
      let p1 := compileList list nodes
      let p2 := compileNumber count p1.1
      push p2.1 (.ListMin p1.2 p2.2)
    | .Sort list =>
      let p := compileList list nodes
      push p.1 (.ListSort p.2)
    | .SortDesc list =>
      let p := compileList list nodes
      push p.1 (.ListSortDesc p.2)
    | .ToListFromDicePool dpool =>
      let p := compileDicePool dpool nodes
      push p.1 (.ListToListFromDicePool p.2)
    | .ToListFromSuccessPool spool =>
      let p := compileSuccessPool spool nodes
      push p.1 (.ListToListFromSuccessPool p.2)
    | .Filter list param =>
      let p1 := compileList list nodes
      let p2 := compileModParam param p1.1
      push p2.1 (.ListFilter p1.2 p2.2)

def compileDicePool : DicePoolType → List EvalNode → List EvalNode × ℕ
  | .Standard count sides, nodes =>
    let p1 := compileNumber count nodes
    let p2 := compileNumber sides p1.1
    push p2.1 (.DiceStandard p1.2 p2.2)
  | .Fudge count, nodes =>
    let p := compileNumber count nodes
    push p.1 (.DiceFudge p.2)
  | .Coin count, nodes =>
    let p := compileNumber count nodes
    push p.1 (.DiceCoin p.2)
  | .KeepHigh pool count, nodes =>
    let p1 := compileDicePool pool nodes
    let p2 := compileNumber count p1.1
    push p2.1 (.DiceKeepHigh p1.2 p2.2)
  | .DropLow pool count, nodes =>
    let p1 := compileDicePool pool nodes
    let p2 := compileNumber count p1.1
    push p2.1 (.DiceDropLow p1.2 p2.2)
  | .DropHigh pool count, nodes =>
    let p1 := compileDicePool pool nodes
    let p2 := compileNumber count p1.1
    push p2.1 (.DiceDropHigh p1.2 p2.2)
  | .KeepLow pool count, nodes =>
    let p1 := compileDicePool pool nodes
    let p2 := compileNumber count p1.1
    push p2.1 (.DiceKeepLow p1.2 p2.2)
  | .Max pool target, nodes =>
    let p1 := compileDicePool pool nodes
    let p2 := compileNumber target p1.1
    push p2.1 (.DiceMax p1.2 p2.2)
  | .Min pool target, nodes =>
    let p1 := compileDicePool pool nodes
    let p2 := compileNumber target p1.1
    push p2.1 (.DiceMin p1.2 p2.2)
  | .Explode pool param lim, nodes =>
    let p1 := compileDicePool pool nodes
    let p2 := compileOptModParam param p1.1
    let p3 := compileOptLimit lim p2.1
    push p3.1 (.DiceExplode p1.2 p2.2 p3.2)
  | .CompoundExplode pool param lim, nodes =>
    let p1 := compileDicePool pool nodes
    let p2 := compileOptModParam param p1.1
    let p3 := compileOptLimit lim p2.1
    push p3.1 (.DiceCompoundExplode p1.2 p2.2 p3.2)
  | .Reroll pool param lim, nodes =>
    let p1 := compileDicePool pool nodes
    let p2 := compileModParam param p1.1
    let p3 := compileOptLimit lim p2.1
    push p3.1 (.DiceReroll p1.2 p2.2 p3.2)
  | .SubtractFailures pool param, nodes =>
    let p1 := compileDicePool pool nodes
    let p2 := compileModParam param p1.1
    push p2.1 (.DiceSubtractFailures p1.2 p2.2)

def compileSuccessPool : SuccessPoolType → List EvalNode → List EvalNode × ℕ
  | .CountSuccessesFromDicePool dicePool param, nodes =>
    let p1 := compileDicePool dicePool nodes
    let p2 := compileModParam param p1.1
    push p2.1 (.DiceCountSuccessesFromDicePool p1.2 p2.2)
  | .DeductFailuresFromDicePool dicePool param, nodes =>
    let p1 := compileDicePool dicePool nodes
    let p2 := compileModParam param p1.1
    push p2.1 (.DiceDeductFailuresFromDicePool p1.2 p2.2)
  | .CountSuccesses successPool param, nodes =>
    let p1 := compileSuccessPool successPool nodes
    let p2 := compileModParam param p1.1
    push p2.1 (.DiceCountSuccesses p1.2 p2.2)
  | .DeductFailures successPool param, nodes =>
    let p1 := compileSuccessPool successPool nodes
    let p2 := compileModParam param p1.1
    push p2.1 (.DiceDeductFailures p1.2 p2.2)

def compileModParam : ModParam → List EvalNode → List EvalNode × ModParamNode
  | .mk op value, nodes =>
    let p := compileNumber value nodes
    (p.1, ⟨op, p.2⟩)

def compileOptModParam : Option ModParam → List EvalNode →
    List EvalNode × Option ModParamNode
  | none, nodes => (nodes, none)
  | some mp, nodes =>
    let p := compileModParam mp nodes
    (p.1, some p.2)

def compileLimit : Limit → List EvalNode → List EvalNode × LimitNode
  | .mk t c, nodes =>
    let p1 := match t with
      | some n =>
        let p := compileNumber n nodes
        (p.1, some p.2)
      | none => (nodes, none)
    let p2 := match c with
      | some n =>
        let p := compileNumber n p1.1
        (p.1, some p.2)
      | none => (p1.1, none)
    (p2.1, ⟨p1.2, p2.2⟩)

def compileOptLimit : Option Limit → List EvalNode →
    List EvalNode × Option LimitNode
  | none, nodes => (nodes, none)
  | some lim, nodes =>
    let p := compileLimit lim nodes
    (p.1, some p.2)

def compileNumberList : List NumberType → List EvalNode →
    List EvalNode × List ℕ
  | [], nodes => (nodes, [])
  | e :: rest, nodes =>
    let p := compileNumber e nodes
    let q := compileNumberList rest p.1
    (q.1, p.2 :: q.2)

end

/-- `compile_hir_to_eval_graph`. -/
def compileHirToEvalGraph (hir : HIR) : EvalGraph :=
  match hir with
  | .Number n =>
    let p := compileNumber n []
    ⟨p.1, p.2⟩
  | .List l =>
    let p := compileList l []
    ⟨p.1, p.2⟩

def optModParamIds : Option ModParamNode → List ℕ
  | some mp => [mp.value]
  | none => []

def limitNodeIds : LimitNode → List ℕ
  | ln => (match ln.limit_times with | some t => [t] | none => []) ++
      (match ln.limit_counts with | some c => [c] | none => [])

def optLimitIds : Option LimitNode → List ℕ
  | some ln => limitNodeIds ln
  | none => []

/-- The child node ids referenced by a graph node (the `NodeId` fields,
including those inside `ModParamNode`/`LimitNode`). -/
def childIds : EvalNode → List ℕ
  | .Constant _ => []
  | .ListConstruct elements => elements
  | .NumNegate n => [n]
  | .NumAdd l r => [l, r]
  | .NumSubtract l r => [l, r]
  | .NumMultiply l r => [l, r]
  | .NumDivide l r => [l, r]
  | .NumIntDivide l r => [l, r]
  | .NumModulo l r => [l, r]
  | .Concat l r => [l, r]
  | .ListAdd l n => [l, n]
  | .ListMultiply l n => [l, n]
  | .ListSubtract l n => [l, n]
  | .ListSubtractReverse n l => [n, l]
  | .ListDivide l n => [l, n]
  | .ListDivideReverse n l => [n, l]
  | .ListIntDivide l n => [l, n]
  | .ListIntDivideReverse n l => [n, l]
  | .ListModulo l n => [l, n]
  | .ListModuloReverse n l => [n, l]
  | .NumFloor n => [n]
  | .NumCeil n => [n]
  | .NumRound n => [n]
  | .NumAbs n => [n]
  | .NumMax l => [l]
  | .NumMin l => [l]
  | .NumSum l => [l]
  | .NumAvg l => [l]
  | .NumLen l => [l]
  | .ListFloor l => [l]
  | .ListCeil l => [l]
  | .ListRound l => [l]
  | .ListAbs l => [l]
  | .ListMax l n => [l, n]
  | .ListMin l n => [l, n]
  | .ListSort l => [l]
  | .ListSortDesc l => [l]
  | .ListToListFromDicePool d => [d]
  | .ListToListFromSuccessPool s => [s]
  | .ListFilter l param => [l, param.value]
  | .DiceStandard c s => [c, s]
  | .DiceFudge c => [c]
  | .DiceCoin c => [c]
  | .DiceKeepHigh s p => [s, p]
  | .DiceKeepLow s p => [s, p]
  | .DiceDropHigh s p => [s, p]
  | .DiceDropLow s p => [s, p]
  | .DiceMin s t => [s, t]
  | .DiceMax s t => [s, t]
  | .DiceExplode s p lim => [s] ++ optModParamIds p ++ optLimitIds lim
  | .DiceCompoundExplode s p lim => [s] ++ optModParamIds p ++ optLimitIds lim
  | .DiceReroll s p lim => [s, p.value] ++ optLimitIds lim
  | .DiceSubtractFailures s p => [s, p.value]
  | .DiceCountSuccessesFromDicePool s p => [s, p.value]
  | .DiceDeductFailuresFromDicePool s p => [s, p.value]
  | .DiceCountSuccesses s p => [s, p.value]
  | .DiceDeductFailures s p => [s, p.value]

-- Number of graph nodes each IR fragment compiles to (each constructor of
-- the four node families becomes exactly one graph node; `ModParam` and
-- `Limit` contribute only their numeric operands).

mutual

def numberIrCount : NumberType → ℕ
  | .Constant _ => 1
  | .DicePool d => dicePoolIrCount d
  | .SuccessPool s => successPoolIrCount s
  | .NumberBinary b =>
    match b with
    | .Add l r | .Subtract l r | .Multiply l r | .Divide l r
    | .IntDivide l r | .Modulo l r => numberIrCount l + numberIrCount r + 1
  | .NumberFunction f =>
    match f with
    | .Floor n | .Ceil n | .Round n | .Abs n => numberIrCount n + 1
    | .Max l | .Min l | .Sum l | .Avg l | .Len l => listIrCount l + 1
  | .Neg n => numberIrCount n + 1

def dicePoolIrCount : DicePoolType → ℕ
  | .Standard c s => numberIrCount c + numberIrCount s + 1
  | .Fudge c => numberIrCount c + 1
  | .Coin c => numberIrCount c + 1
  | .KeepHigh d n | .KeepLow d n | .DropHigh d n | .DropLow d n
  | .Min d n | .Max d n => dicePoolIrCount d + numberIrCount n + 1
  | .Explode d mp lim | .CompoundExplode d mp lim =>
    dicePoolIrCount d + optModParamIrCount mp + optLimitIrCount lim + 1
  | .Reroll d mp lim =>
    dicePoolIrCount d + modParamIrCount mp + optLimitIrCount lim + 1
  | .SubtractFailures d mp => dicePoolIrCount d + modParamIrCount mp + 1

def successPoolIrCount : SuccessPoolType → ℕ
  | .CountSuccessesFromDicePool d mp | .DeductFailuresFromDicePool d mp =>
    dicePoolIrCount d + modParamIrCount mp + 1
  | .CountSuccesses s mp | .DeductFailures s mp =>
    successPoolIrCount s + modParamIrCount mp + 1

def listIrCount : ListType → ℕ
  | .Explicit es => numberListIrCount es + 1
  | .ListBinary b =>
    match b with
    | .AddList l r => listIrCount l + listIrCount r + 1
    | .Add l n | .Multiply l n | .Subtract l n | .Divide l n
    | .IntDivide l n | .Modulo l n => listIrCount l + numberIrCount n + 1
    | .SubtractReverse n l | .DivideReverse n l | .IntDivideReverse n l
    | .ModuloReverse n l => numberIrCount n + listIrCount l + 1
  | .ListFunction f =>
    match f with
    | .Floor l | .Ceil l | .Round l | .Abs l | .Sort l | .SortDesc l =>
      listIrCount l + 1
    | .Max l n | .Min l n => listIrCount l + numberIrCount n + 1
    | .ToListFromDicePool d => dicePoolIrCount d + 1
    | .ToListFromSuccessPool s => successPoolIrCount s + 1
    | .Filter l mp => listIrCount l + modParamIrCount mp + 1

def modParamIrCount : ModParam → ℕ
  | .mk _ v => numberIrCount v

def optModParamIrCount : Option ModParam → ℕ
  | none => 0
  | some mp => modParamIrCount mp

def optLimitIrCount : Option Limit → ℕ
  | none => 0
  | some (.mk t c) =>
    (match t with | some n => numberIrCount n | none => 0) +
      (match c with | some n => numberIrCount n | none => 0)

def numberListIrCount : List NumberType → ℕ
  | [] => 0
  | e :: rest => numberIrCount e + numberListIrCount rest

end

def hirIrCount : HIR → ℕ
  | .Number n => numberIrCount n
  | .List l => listIrCount l

-- ==========================================
-- types/runtime_value.rs — runtime values, node memory, dynamic state.
-- (Namespaced `Rt` because the source reuses the names `DicePoolType` /
-- `SuccessPoolType` from the HIR module for distinct runtime types.)
-- ==========================================

namespace Rt

/-- Rust `Vec<f64>` (named so that it stays unambiguous next to the
`RuntimeValue.List` constructor). -/
abbrev F64Vec := List ℚ

inductive DieOutcome where
  | None
  | Success
  | Failure
deriving DecidableEq, Repr

abbrev RollId := ℕ

structure DieDetail where
  result : ℤ
  roll_id : List RollId
  roll_history : List ℤ
  is_kept : Bool
  outcome : DieOutcome
  is_rerolled : Bool
  exploded_times : ℤ
deriving Repr

inductive DiceFace where
  | Number (n : ℤ)
  | Fudge
  | Coin
deriving DecidableEq, Repr

structure DicePoolType where
  total : ℤ
  face : DiceFace
  details : List DieDetail
deriving Repr

structure SuccessPoolType where
  success_count : ℤ
  face : DiceFace
  details : List DieDetail
deriving Repr

/-- An `i32` sum, each addition wrapping (release-build Rust). -/
def i32Sum (l : List ℤ) : ℤ :=
  l.foldl (fun a b => wrap32 (a + b)) 0

/-- `DicePoolType::renew_total`: the total is recomputed as the sum of the
kept results after every mutation. -/
def DicePoolType.renew_total (dp : DicePoolType) : DicePoolType :=
  { dp with total := i32Sum ((dp.details.filter (fun d => d.is_kept)).map
      (fun d => d.result)) }

/-- `SuccessPoolType::renew_success_count`. -/
def SuccessPoolType.renew_success_count (sp : SuccessPoolType) :
    SuccessPoolType :=
  { sp with success_count := i32Sum ((sp.details.filter (fun d => d.is_kept)).map
      (fun d =>
        match d.outcome with
        | .Success => 1
        | .Failure => -1
        | .None => 0)) }

inductive RuntimeValue where
  | Number (v : ℚ)
  | List (l : F64Vec)
  | DicePool (dp : DicePoolType)
  | SuccessPool (sp : SuccessPoolType)
deriving Repr

def RuntimeValue.except_number : RuntimeValue → Except String ℚ
  | .Number v => .ok v
  | .DicePool dp => .ok (dp.total : ℚ)
  | .SuccessPool sp => .ok (sp.success_count : ℚ)
  | .List _ => .error ("Expected a number but got a list")

def RuntimeValue.except_list : RuntimeValue → Except String F64Vec
  | .List v => .ok v
  | .Number _ => .error ("Expected a list but got a number")
  | .DicePool _ => .error ("Expected a list but got a dice pool")
  | .SuccessPool _ => .error ("Expected a list but got a success pool")

def RuntimeValue.except_dice_pool : RuntimeValue → Except String DicePoolType
  | .DicePool v => .ok v
  | .Number _ => .error ("Expected a dice pool but got a number")
  | .List _ => .error ("Expected a dice pool but got a list")
  | .SuccessPool _ => .error ("Expected a dice pool but got a success pool")

def RuntimeValue.except_success_pool :
    RuntimeValue → Except String SuccessPoolType
  | .SuccessPool v => .ok v
  | .Number _ => .error ("Expected a success pool but got a number")
  | .List _ => .error ("Expected a success pool but got a list")
  | .DicePool _ => .error ("Expected a success pool but got a dice pool")

structure DynamicState where
  pool : DicePoolType
  limit_times : Option ℤ
  limit_count : Option ℤ
  pending_dice : List (ℕ × Option ℤ × Option RollId)
deriving Repr

/-- `DynamicState::try_resume_times` (pure form: flag plus updated state). -/
def DynamicState.tryResumeTimes (s : DynamicState) : Bool × DynamicState :=
  match s.limit_times with
  | some times =>
    if 0 < times then (true, { s with limit_times := some (times - 1) })
    else (false, s)
  | none => (true, s)

/-- `DynamicState::try_resume_count`. -/
def DynamicState.tryResumeCount (s : DynamicState) : Bool × DynamicState :=
  match s.limit_count with
  | some count =>
    if 0 < count then (true, { s with limit_count := some (count - 1) })
    else (false, s)
  | none => (true, s)

inductive NodeState where
  | Waiting
  | Computed (v : RuntimeValue)
  | Dynamic (s : DynamicState)
deriving Repr

structure RuntimeRequest where
  node_id : ℕ
  face : DiceFace
  count : ℕ
deriving Repr

structure RuntimeResponse where
  results : List (ℤ × RollId)
deriving Repr

end Rt

-- ==========================================
-- runtime_engine.rs: the suspend/resume execution engine
-- ==========================================

structure ExecutionContext where
  graph : EvalGraph
  memory : List Rt.NodeState
  requests : List Rt.RuntimeRequest
  remove_requests : List Rt.RollId

/-- `ExecutionContext::new`: every node memory slot starts `Waiting`. -/
def ExecutionContext.new (graph : EvalGraph) : ExecutionContext :=
  ⟨graph, List.replicate graph.nodes.length .Waiting, [], []⟩

def setMem (ctx : ExecutionContext) (idx : ℕ) (st : Rt.NodeState) :
    ExecutionContext :=
  { ctx with memory := ctx.memory.set idx st }

def pushRequest (ctx : ExecutionContext) (req : Rt.RuntimeRequest) :
    ExecutionContext :=
  { ctx with requests := ctx.requests ++ [req] }

def extendRemove (ctx : ExecutionContext) (ids : List Rt.RollId) :
    ExecutionContext :=
  { ctx with remove_requests := ctx.remove_requests ++ ids }

inductive DiceFilterOp where
  | KeepHigh
  | KeepLow
  | DropHigh
  | DropLow

/-- `keep_elements_preserve_order` (runtime_engine.rs copy, over values). -/
def keepElementsPreserveOrderRt (values : List ℚ) (rawCount : ℚ)
    (keepHighest : Bool) : List ℚ :=
  if rawCount < 0 then [] else
  let count := f64AsUsize rawCount
  if values.length ≤ count then values
  else
    let indexed := values.enum
    let sorted := insertionSortBy
      (fun a b => if keepHighest then myCompare b.2 a.2 else myCompare a.2 b.2)
      indexed
    let topK := insertionSortBy (fun a b => compare a.1 b.1) (sorted.take count)
    topK.map (fun p => p.2)

/-- Mark one die detail as not kept, extending the removal list with its
roll ids. -/
def unkeepAt (pool : Rt.DicePoolType) (removeAcc : List Rt.RollId) (i : ℕ) :
    Rt.DicePoolType × List Rt.RollId :=
  match pool.details.get? i with
  | some d =>
    ({ pool with details := pool.details.set i { d with is_kept := false } },
      removeAcc ++ d.roll_id)
  | none => (pool, removeAcc)

def unkeepAll (pool : Rt.DicePoolType) (removeAcc : List Rt.RollId)
    (idxs : List ℕ) : Rt.DicePoolType × List Rt.RollId :=
  idxs.foldl (fun acc i => unkeepAt acc.1 acc.2 i) (pool, removeAcc)

/-- The explode merge closure: each pending die gets its explode counter
bumped and a fresh independent die appended. -/
def explodeMerge (state : Rt.DynamicState) :
    Except String (List (ℕ × ℤ) × List Rt.RollId × Rt.DynamicState) := do
  let acc ← state.pending_dice.foldlM
    (fun (acc : Rt.DynamicState × List (ℕ × ℤ)) p => do
      let st := acc.1
      match st.pool.details.get? p.1 with
      | none => .error ("index out of bounds")
      | some dOld =>
        let newDetails := st.pool.details.set p.1 { dOld with exploded_times := dOld.exploded_times + 1 }
        let pool := { st.pool with details := newDetails }
        match p.2.1 with
        | none => .error ("Some value is missing")
        | some newValue =>
          match p.2.2 with
          | none => .error ("Some value is missing")
          | some rid =>
            let pool := { pool with details := pool.details ++
              [⟨newValue, [rid], [newValue], true, .None, false, 0⟩] }
            .ok ({ st with pool := pool },
              acc.2 ++ [(pool.details.length - 1, newValue)]))
    (state, [])
  .ok (acc.2, [], acc.1)

/-- The compound-explode merge closure: the new roll is folded into the same
logical die (value added, history and roll ids extended). -/
def compoundExplodeMerge (state : Rt.DynamicState) :
    Except String (List (ℕ × ℤ) × List Rt.RollId × Rt.DynamicState) := do
  let acc ← state.pending_dice.foldlM
    (fun (acc : Rt.DynamicState × List (ℕ × ℤ)) p => do
      let st := acc.1
      match st.pool.details.get? p.1 with
      | none => .error ("index out of bounds")
      | some dOld =>
        match p.2.1 with
        | none => .error ("Some value is missing")
        | some newValue =>
          match p.2.2 with
          | none => .error ("Some value is missing")
          | some rid =>
            let dNew := { dOld with
              exploded_times := dOld.exploded_times + 1,
              result := wrap32 (dOld.result + newValue),
              roll_history := dOld.roll_history ++ [newValue],
              roll_id := dOld.roll_id ++ [rid] }
            let pool := { st.pool with details := st.pool.details.set p.1 dNew }
            .ok ({ st with pool := pool }, acc.2 ++ [(p.1, newValue)]))
    (state, [])
  .ok (acc.2, [], acc.1)

/-- The reroll merge closure: the old die is marked rerolled and unkept (its
roll ids scheduled for visual removal) and a fresh die is appended. -/
def rerollMerge (state : Rt.DynamicState) :
    Except String (List (ℕ × ℤ) × List Rt.RollId × Rt.DynamicState) := do
  let acc ← state.pending_dice.foldlM
    (fun (acc : (Rt.DynamicState × List Rt.RollId) × List (ℕ × ℤ)) p => do
      let st := acc.1.1
      match st.pool.details.get? p.1 with
      | none => .error ("index out of bounds")
      | some dOld =>
        let newDetails := st.pool.details.set p.1 { dOld with is_rerolled := true, is_kept := false }
        let pool := { st.pool with details := newDetails }
        let toRemove := acc.1.2 ++ dOld.roll_id
        match p.2.1 with
        | none => .error ("Some value is missing")
        | some newValue =>
          match p.2.2 with
          | none => .error ("Some value is missing")
          | some rid =>
            let pool := { pool with details := pool.details ++
              [⟨newValue, [rid], [newValue], true, .None, false, 0⟩] }
            .ok (({ st with pool := pool }, toRemove),
              acc.2 ++ [(pool.details.length - 1, newValue)]))
    ((state, []), [])
  .ok (acc.2, acc.1.2, acc.1.1)

set_option maxHeartbeats 1000000

mutual
def evalNode : ℕ → ExecutionContext → ℕ →
    Except String (ExecutionContext × Option Rt.RuntimeValue)
  | 0, _, _ => .error ("fuel exhausted")
  | fuel + 1, ctx, id =>
    match ctx.memory.get? id with
    | none => .error ("node memory index out of range")
    | some (.Computed v) => .ok (ctx, some v)
    | some _ =>
      match ctx.graph.nodes.get? id with
      | none => .error ("graph node index out of range")
      | some node =>
        match evalArm fuel ctx id node with
        | .error e => .error e
        | .ok (ctx2, some v) => .ok (setMem ctx2 id (.Computed v), some v)
        | .ok (ctx2, none) => .ok (ctx2, none)

termination_by structural fuel _ _ => fuel

/-- The per-node-kind dispatch (the big `match node` in `eval_node`). -/

def evalArm : ℕ → ExecutionContext → ℕ → EvalNode →
    Except String (ExecutionContext × Option Rt.RuntimeValue)
  | 0, _, _, _ => .error ("fuel exhausted")
  | fuel + 1, ctx, id, node =>
    match node with
    | .Constant v => .ok (ctx, some (.Number v))
    | .ListConstruct elements => do
      let acc ← evalListElems fuel ctx elements [] false
      match acc with
      | (ctx, _, true) => .ok (ctx, none)
      | (ctx, list, false) => .ok (ctx, some (.List list))
    | .NumNegate n => do
      match ← evalNode fuel ctx n with
      | (ctx, some v) =>
        match v.except_number with
        | .ok q => .ok (ctx, some (.Number (-q)))
        | .error e => .error e
      | (ctx, none) => .ok (ctx, none)
    | .NumAdd idx1 idx2 => do
      let (ctx, v1) ← getNumber fuel ctx idx1
      let (ctx, v2) ← getNumber fuel ctx idx2
      match v1, v2 with
      | some n1, some n2 => .ok (ctx, some (.Number (n1 + n2)))
      | _, _ => .ok (ctx, none)
    | .NumSubtract idx1 idx2 => do
      let (ctx, v1) ← getNumber fuel ctx idx1
      let (ctx, v2) ← getNumber fuel ctx idx2
      match v1, v2 with
      | some n1, some n2 => .ok (ctx, some (.Number (n1 - n2)))
      | _, _ => .ok (ctx, none)
    | .NumMultiply idx1 idx2 => do
      let (ctx, v1) ← getNumber fuel ctx idx1
      let (ctx, v2) ← getNumber fuel ctx idx2
      match v1, v2 with
      | some n1, some n2 => .ok (ctx, some (.Number (n1 * n2)))
      | _, _ => .ok (ctx, none)
    | .NumDivide idx1 idx2 => do
      let (ctx, v1) ← getNumber fuel ctx idx1
      let (ctx, v2) ← getNumber fuel ctx idx2
      match v1, v2 with
      | some n1, some n2 =>
        if n2 = 0 then .error ("Division by zero")
        else .ok (ctx, some (.Number (n1 / n2)))
      | _, _ => .ok (ctx, none)
    | .NumIntDivide idx1 idx2 => do
      let (ctx, v1) ← getNumber fuel ctx idx1
      let (ctx, v2) ← getNumber fuel ctx idx2
      match v1, v2 with
      | some n1, some n2 =>
        if n2 = 0 then .error ("Integer division by zero")
        else .ok (ctx, some (.Number ((⌊n1 / n2⌋ : ℤ) : ℚ)))
      | _, _ => .ok (ctx, none)
    | .NumModulo idx1 idx2 => do
      let (ctx, v1) ← getNumber fuel ctx idx1
      let (ctx, v2) ← getNumber fuel ctx idx2
      match v1, v2 with
      | some n1, some n2 =>
        if n2 = 0 then .error ("Modulo by zero")
        else .ok (ctx, some (.Number (f64Rem n1 n2)))
      | _, _ => .ok (ctx, none)
    | .Concat idx1 idx2 => do
      let (ctx, ready1) ← ensureReady fuel ctx idx1
      let (ctx, ready2) ← ensureReady fuel ctx idx2
      if ready1 && ready2 then do
        let (ctx, l1) ← getList fuel ctx idx1
        let (ctx, l2) ← getList fuel ctx idx2
        match l1, l2 with
        | some list1, some list2 => .ok (ctx, some (.List (list1 ++ list2)))
        | _, _ => .error ("unwrap on None")
      else
        .ok (ctx, none)
    | .ListAdd listIdx numberIdx =>
      applyListScalarOp fuel ctx listIdx numberIdx (fun x n => .ok (x + n))
    | .ListMultiply listIdx numberIdx =>
      applyListScalarOp fuel ctx listIdx numberIdx (fun x n => .ok (x * n))
    | .ListSubtract listIdx numberIdx =>
      applyListScalarOp fuel ctx listIdx numberIdx (fun x n => .ok (x - n))
    | .ListDivide listIdx numberIdx =>
      applyListScalarOp fuel ctx listIdx numberIdx (fun x n =>
        if n = 0 then .error ("Division by zero in ListDivide")
        else .ok (x / n))
    | .ListIntDivide listIdx numberIdx =>
      applyListScalarOp fuel ctx listIdx numberIdx (fun x n =>
        if n = 0 then .error ("Integer division by zero in ListIntDivide")
        else .ok ((⌊x / n⌋ : ℤ) : ℚ))
    | .ListModulo listIdx numberIdx =>
      applyListScalarOp fuel ctx listIdx numberIdx (fun x n =>
        if n = 0 then .error ("Modulo by zero in ListModulo")
        else .ok (f64Rem x n))
    | .ListSubtractReverse numberIdx listIdx =>
      applyListScalarOp fuel ctx listIdx numberIdx (fun x n => .ok (n - x))
    | .ListDivideReverse numberIdx listIdx =>
      applyListScalarOp fuel ctx listIdx numberIdx (fun x n =>
        if x = 0 then .error ("Division by zero in ListDivideReverse")
        else .ok (n / x))
    | .ListIntDivideReverse numberIdx listIdx =>
      applyListScalarOp fuel ctx listIdx numberIdx (fun x n =>
        if x = 0 then .error ("Integer division by zero in ListIntDivideReverse")
        else .ok ((⌊n / x⌋ : ℤ) : ℚ))
    | .ListModuloReverse numberIdx listIdx =>
      applyListScalarOp fuel ctx listIdx numberIdx (fun x n =>
        if x = 0 then .error ("Modulo by zero in ListModuloReverse")
        else .ok (f64Rem n x))
    | .NumFloor n => do
      match ← evalNode fuel ctx n with
      | (ctx, some v) =>
        match v.except_number with
        | .ok q => .ok (ctx, some (.Number ((⌊q⌋ : ℤ) : ℚ)))
        | .error e => .error e
      | (ctx, none) => .ok (ctx, none)
    | .NumCeil n => do
      match ← evalNode fuel ctx n with
      | (ctx, some v) =>
        match v.except_number with
        | .ok q => .ok (ctx, some (.Number ((⌈q⌉ : ℤ) : ℚ)))
        | .error e => .error e
      | (ctx, none) => .ok (ctx, none)
    | .NumRound n => do
      match ← evalNode fuel ctx n with
      | (ctx, some v) =>
        match v.except_number with
        | .ok q => .ok (ctx, some (.Number (f64Round q)))
        | .error e => .error e
      | (ctx, none) => .ok (ctx, none)
    | .NumAbs n => do
      match ← evalNode fuel ctx n with
      | (ctx, some v) =>
        match v.except_number with
        | .ok q => .ok (ctx, some (.Number |q|))
        | .error e => .error e
      | (ctx, none) => .ok (ctx, none)
    | .NumMax n => do
      let (ctx, listOpt) ← getList fuel ctx n
      match listOpt with
      | some list =>
        if list.isEmpty then .error ("NumMax called on empty list")
        else .ok (ctx, some (.Number (list.foldl max f64NegInfinity)))
      | none => .ok (ctx, none)
    | .NumMin n => do
      let (ctx, listOpt) ← getList fuel ctx n
      match listOpt with
      | some list =>
        if list.isEmpty then .error ("NumMin called on empty list")
        else .ok (ctx, some (.Number (list.foldl min f64Infinity)))
      | none => .ok (ctx, none)
    | .NumSum n => do
      let (ctx, listOpt) ← getList fuel ctx n
      match listOpt with
      | some list => .ok (ctx, some (.Number list.sum))
      | none => .ok (ctx, none)
    | .NumAvg n => do
      let (ctx, listOpt) ← getList fuel ctx n
      match listOpt with
      | some list =>
        let avgValue : ℚ :=
          if list.isEmpty then 0 else list.sum / (list.length : ℚ)
        .ok (ctx, some (.Number avgValue))
      | none => .ok (ctx, none)
    | .NumLen n => do
      let (ctx, listOpt) ← getList fuel ctx n
      match listOpt with
      | some list => .ok (ctx, some (.Number (list.length : ℚ)))
      | none => .ok (ctx, none)
    | .ListFloor n => do
      match ← evalNode fuel ctx n with
      | (ctx, some v) =>
        match v.except_list with
        | .ok list => .ok (ctx, some (.List (list.map (fun x => ((⌊x⌋ : ℤ) : ℚ)))))
        | .error e => .error e
      | (ctx, none) => .ok (ctx, none)
    | .ListCeil n => do
      match ← evalNode fuel ctx n with
      | (ctx, some v) =>
        match v.except_list with
        | .ok list => .ok (ctx, some (.List (list.map (fun x => ((⌈x⌉ : ℤ) : ℚ)))))
        | .error e => .error e
      | (ctx, none) => .ok (ctx, none)
    | .ListRound n => do
      match ← evalNode fuel ctx n with
      | (ctx, some v) =>
        match v.except_list with
        | .ok list => .ok (ctx, some (.List (list.map f64Round)))
        | .error e => .error e
      | (ctx, none) => .ok (ctx, none)
    | .ListAbs n => do
      match ← evalNode fuel ctx n with
      | (ctx, some v) =>
        match v.except_list with
        | .ok list => .ok (ctx, some (.List (list.map (fun x => |x|))))
        | .error e => .error e
      | (ctx, none) => .ok (ctx, none)
    | .ListMax listIdx numberIdx => do
      let (ctx, listReady) ← ensureReady fuel ctx listIdx
      let (ctx, number) ← getNumber fuel ctx numberIdx
      if listReady && number.isSome then do
        let (ctx, listOpt) ← getList fuel ctx listIdx
        match listOpt, number with
        | some list, some numVal =>
          .ok (ctx, some (.List (keepElementsPreserveOrderRt list numVal true)))
        | _, _ => .error ("unwrap on None")
      else
        .ok (ctx, none)
    | .ListMin listIdx numberIdx => do
      let (ctx, listReady) ← ensureReady fuel ctx listIdx
      let (ctx, number) ← getNumber fuel ctx numberIdx
      if listReady && number.isSome then do
        let (ctx, listOpt) ← getList fuel ctx listIdx
        match listOpt, number with
        | some list, some numVal =>
          .ok (ctx, some (.List (keepElementsPreserveOrderRt list numVal false)))
        | _, _ => .error ("unwrap on None")
      else
        .ok (ctx, none)
    | .ListSort n => do
      match ← evalNode fuel ctx n with
      | (ctx, some v) =>
        match v.except_list with
        | .ok list => .ok (ctx, some (.List (insertionSortBy myCompare list)))
        | .error e => .error e
      | (ctx, none) => .ok (ctx, none)
    | .ListSortDesc n => do
      match ← evalNode fuel ctx n with
      | (ctx, some v) =>
        match v.except_list with
        | .ok list =>
          .ok (ctx, some (.List (insertionSortBy (fun a b => myCompare b a) list)))
        | .error e => .error e
      | (ctx, none) => .ok (ctx, none)
    | .ListToListFromDicePool n => do
      match ← evalNode fuel ctx n with
      | (ctx, some v) =>
        match v.except_dice_pool with
        | .ok dicePool =>
          .ok (ctx, some (.List ((dicePool.details.filter
            (fun d => d.is_kept)).map (fun d => (d.result : ℚ)))))
        | .error e => .error e
      | (ctx, none) => .ok (ctx, none)
    | .ListToListFromSuccessPool n => do
      match ← evalNode fuel ctx n with
      | (ctx, some v) =>
        match v.except_success_pool with
        | .ok successPool =>
          .ok (ctx, some (.List ((successPool.details.filter
            (fun d => d.is_kept)).map (fun d =>
              match d.outcome with
              | .Success => (1 : ℚ)
              | .Failure => -1
              | .None => 0))))
        | .error e => .error e
      | (ctx, none) => .ok (ctx, none)
    | .ListFilter listIdx modParamNode => do
      let (ctx, listReady) ← ensureReady fuel ctx listIdx
      let (ctx, modParamReady) ← ensureReady fuel ctx modParamNode.value
      if listReady && modParamReady then do
        let (ctx, listOpt) ← getList fuel ctx listIdx
        let (ctx, valOpt) ← getNumber fuel ctx modParamNode.value
        match listOpt, valOpt with
        | some list, some modParamValue =>
          .ok (ctx, some (.List (list.filter
            (getCompareFunction modParamNode.operator modParamValue))))
        | _, _ => .error ("unwrap on None")
      else
        .ok (ctx, none)
    | .DiceStandard countId sidesId => do
      let (ctx, countVal) ← getNumber fuel ctx countId
      let (ctx, sidesVal) ← getNumber fuel ctx sidesId
      match countVal, sidesVal with
      | some c, some s =>
        let count := f64AsI32 c
        let sides := f64AsI32 s
        if sides ≤ 0 then
          .ok (ctx, some (.DicePool ⟨0, .Number 0, []⟩))
        else if count ≤ 0 then
          .ok (ctx, some (.DicePool ⟨0, .Number sides, []⟩))
        else
          .ok (pushRequest ctx ⟨id, .Number sides, count.toNat⟩, none)
      | _, _ => .ok (ctx, none)
    | .DiceFudge countId => do
      let (ctx, countVal) ← getNumber fuel ctx countId
      match countVal with
      | some c =>
        let count := f64AsI32 c
        if count ≤ 0 then
          .ok (ctx, some (.DicePool ⟨0, .Fudge, []⟩))
        else
          .ok (pushRequest ctx ⟨id, .Fudge, count.toNat⟩, none)
      | none => .ok (ctx, none)
    | .DiceCoin countId => do
      let (ctx, countVal) ← getNumber fuel ctx countId
      match countVal with
      | some c =>
        let count := f64AsI32 c
        if count ≤ 0 then
          .ok (ctx, some (.DicePool ⟨0, .Coin, []⟩))
        else
          .ok (pushRequest ctx ⟨id, .Coin, count.toNat⟩, none)
      | none => .ok (ctx, none)
    | .DiceKeepHigh dpId countId =>
      applyDiceFilter fuel ctx dpId countId .KeepHigh
    | .DiceKeepLow dpId countId =>
      applyDiceFilter fuel ctx dpId countId .KeepLow
    | .DiceDropHigh dpId countId =>
      applyDiceFilter fuel ctx dpId countId .DropHigh
    | .DiceDropLow dpId countId =>
      applyDiceFilter fuel ctx dpId countId .DropLow
    | .DiceMin dpId targetId => applyDiceMinMax fuel ctx dpId targetId false
    | .DiceMax dpId targetId => applyDiceMinMax fuel ctx dpId targetId true
    | .DiceSubtractFailures dpId modParamNode => do
      let (ctx, poolReady) ← ensureReady fuel ctx dpId
      let (ctx, modParamReady) ← ensureReady fuel ctx modParamNode.value
      if poolReady && modParamReady then do
        let (ctx, poolOpt) ← getDicePool fuel ctx dpId
        let (ctx, valOpt) ← getNumber fuel ctx modParamNode.value
        match poolOpt, valOpt with
        | some dicePool, some modParamValue =>
          let compareFunc := getCompareFunction modParamNode.operator modParamValue
          let acc := dicePool.details.foldl
            (fun (acc : List Rt.DieDetail × List Rt.RollId) d =>
              if d.is_kept && compareFunc (d.result : ℚ) then
                (acc.1 ++ [{ d with is_kept := false }], acc.2 ++ d.roll_id)
              else (acc.1 ++ [d], acc.2))
            ([], [])
          let dicePool := Rt.DicePoolType.renew_total
            { dicePool with details := acc.1 }
          .ok (extendRemove ctx acc.2, some (.DicePool dicePool))
        | _, _ => .error ("unwrap on None")
      else
        .ok (ctx, none)
    | .DiceCountSuccessesFromDicePool dpId modParamNode =>
      intoSuccessPoolFromDicePool fuel ctx dpId modParamNode .Success
    | .DiceDeductFailuresFromDicePool dpId modParamNode =>
      intoSuccessPoolFromDicePool fuel ctx dpId modParamNode .Failure
    | .DiceCountSuccesses dpId modParamNode =>
      updateSuccessPool fuel ctx dpId modParamNode .Success
    | .DiceDeductFailures dpId modParamNode =>
      updateSuccessPool fuel ctx dpId modParamNode .Failure
    | .DiceExplode dpId modParamNode limitNode =>
      processDynamicOp fuel ctx id dpId modParamNode limitNode explodeMerge
    | .DiceCompoundExplode dpId modParamNode limitNode =>
      processDynamicOp fuel ctx id dpId modParamNode limitNode
        compoundExplodeMerge
    | .DiceReroll dpId modParamNode limitNode =>
      processDynamicOp fuel ctx id dpId (some modParamNode) limitNode
        rerollMerge

termination_by structural fuel _ _ _ => fuel

/-- The `ListConstruct` element loop: every element is evaluated (so all
requests are collected), results are gathered only while nothing is
waiting yet. -/

def evalListElems : ℕ → ExecutionContext → List ℕ → List ℚ → Bool →
    Except String (ExecutionContext × List ℚ × Bool)
  | 0, _, _, _, _ => .error ("fuel exhausted")
  | _ + 1, ctx, [], list, isWaiting => .ok (ctx, list, isWaiting)
  | fuel + 1, ctx, elemId :: rest, list, isWaiting => do
    match ← evalNode fuel ctx elemId with
    | (ctx, some number) =>
      if isWaiting then evalListElems fuel ctx rest list isWaiting
      else
        match number.except_number with
        | .ok q => evalListElems fuel ctx rest (list ++ [q]) isWaiting
        | .error e => .error e
    | (ctx, none) => evalListElems fuel ctx rest list true
termination_by structural fuel _ _ _ _ => fuel

def getNumber : ℕ → ExecutionContext → ℕ →
    Except String (ExecutionContext × Option ℚ)
  | 0, _, _ => .error ("fuel exhausted")
  | fuel + 1, ctx, id => do
    match ← evalNode fuel ctx id with
    | (ctx, some v) =>
      match v.except_number with
      | .ok q => .ok (ctx, some q)
      | .error e => .error e
    | (ctx, none) => .ok (ctx, none)
termination_by structural fuel _ _ => fuel

def getList : ℕ → ExecutionContext → ℕ →
    Except String (ExecutionContext × Option (List ℚ))
  | 0, _, _ => .error ("fuel exhausted")
  | fuel + 1, ctx, id => do
    match ← evalNode fuel ctx id with
    | (ctx, some v) =>
      match v.except_list with
      | .ok list => .ok (ctx, some list)
      | .error e => .error e
    | (ctx, none) => .ok (ctx, none)
termination_by structural fuel _ _ => fuel

def getDicePool : ℕ → ExecutionContext → ℕ →
    Except String (ExecutionContext × Option Rt.DicePoolType)
  | 0, _, _ => .error ("fuel exhausted")
  | fuel + 1, ctx, id => do
    match ← evalNode fuel ctx id with
    | (ctx, some v) =>
      match v.except_dice_pool with
      | .ok dp => .ok (ctx, some dp)
      | .error e => .error e
    | (ctx, none) => .ok (ctx, none)
termination_by structural fuel _ _ => fuel

def getSuccessPool : ℕ → ExecutionContext → ℕ →
    Except String (ExecutionContext × Option Rt.SuccessPoolType)
  | 0, _, _ => .error ("fuel exhausted")
  | fuel + 1, ctx, id => do
    match ← evalNode fuel ctx id with
    | (ctx, some v) =>
      match v.except_success_pool with
      | .ok sp => .ok (ctx, some sp)
      | .error e => .error e
    | (ctx, none) => .ok (ctx, none)
termination_by structural fuel _ _ => fuel

def ensureReady : ℕ → ExecutionContext → ℕ →
    Except String (ExecutionContext × Bool)
  | 0, _, _ => .error ("fuel exhausted")
  | fuel + 1, ctx, id =>
    match ctx.memory.get? id with
    | some (.Computed _) => .ok (ctx, true)
    | _ => do
      match ← evalNode fuel ctx id with
      | (ctx, r) => .ok (ctx, r.isSome)
termination_by structural fuel _ _ => fuel

def applyListScalarOp (fuel : ℕ) (ctx : ExecutionContext) (listId numberId : ℕ)
    (op : ℚ → ℚ → Except String ℚ) :
    Except String (ExecutionContext × Option Rt.RuntimeValue) :=
  match fuel with
  | 0 => .error ("fuel exhausted")
  | fuel + 1 => do
    let (ctx, listReady) ← ensureReady fuel ctx listId
    let (ctx, number) ← getNumber fuel ctx numberId
    if listReady && number.isSome then do
      let (ctx, listOpt) ← getList fuel ctx listId
      match listOpt, number with
      | some list, some numVal => do
        let resultList ← list.mapM (fun x => op x numVal)
        .ok (ctx, some (.List resultList))
      | _, _ => .error ("unwrap on None")
    else
      .ok (ctx, none)
termination_by structural fuel

def applyDiceFilter (fuel : ℕ) (ctx : ExecutionContext) (poolId countId : ℕ)
    (op : DiceFilterOp) :
    Except String (ExecutionContext × Option Rt.RuntimeValue) :=
  match fuel with
  | 0 => .error ("fuel exhausted")
  | fuel + 1 => do
    let (ctx, poolReady) ← ensureReady fuel ctx poolId
    let (ctx, countVal) ← getNumber fuel ctx countId
    if poolReady && countVal.isSome then do
      let (ctx, poolOpt) ← getDicePool fuel ctx poolId
      match poolOpt, countVal with
      | some dicePool, some raw =>
        let rawCount := f64AsI32 raw
        let count : ℕ := if rawCount < 0 then 0 else rawCount.toNat
        let activeIndices := ((dicePool.details.enum.filter
          (fun p => p.2.is_kept)).map (fun p => p.1))
        if activeIndices.isEmpty then
          .ok (ctx, some (.DicePool dicePool))
        else
          let resultOf := fun i =>
            match dicePool.details.get? i with
            | some d => d.result
            | none => 0
          let activeIndices := insertionSortBy
            (fun a b =>
              match op with
              | .KeepHigh | .DropHigh => intCmp (resultOf b) (resultOf a)
              | .KeepLow | .DropLow => intCmp (resultOf a) (resultOf b))
            activeIndices
          let dropped :=
            match op with
            | .KeepHigh | .KeepLow =>
              if count < activeIndices.length then activeIndices.drop count
              else []
            | .DropHigh | .DropLow =>
              if activeIndices.length ≤ count then activeIndices
              else activeIndices.take count
          let acc := unkeepAll dicePool [] dropped
          let dicePool := Rt.DicePoolType.renew_total acc.1
          .ok (extendRemove ctx acc.2, some (.DicePool dicePool))
      | _, _ => .error ("unwrap on None")
    else
      .ok (ctx, none)
termination_by structural fuel

def applyDiceMinMax (fuel : ℕ) (ctx : ExecutionContext) (poolId targetId : ℕ)
    (isMax : Bool) :
    Except String (ExecutionContext × Option Rt.RuntimeValue) :=
  match fuel with
  | 0 => .error ("fuel exhausted")
  | fuel + 1 => do
    let (ctx, poolReady) ← ensureReady fuel ctx poolId
    let (ctx, targetVal) ← getNumber fuel ctx targetId
    if poolReady && targetVal.isSome then do
      let (ctx, poolOpt) ← getDicePool fuel ctx poolId
      match poolOpt, targetVal with
      | some dicePool, some rawTarget =>
        let target := f64AsI32 rawTarget
        let acc := dicePool.details.foldl
          (fun (acc : List Rt.DieDetail × Bool) d =>
            if d.is_kept then
              if isMax && target < d.result then
                (acc.1 ++ [{ d with result := target }], true)
              else if !isMax && d.result < target then
                (acc.1 ++ [{ d with result := target }], true)
              else (acc.1 ++ [d], acc.2)
            else (acc.1 ++ [d], acc.2))
          ([], false)
        let dicePool := { dicePool with details := acc.1 }
        let dicePool :=
          if acc.2 then Rt.DicePoolType.renew_total dicePool else dicePool
        .ok (ctx, some (.DicePool dicePool))
      | _, _ => .error ("unwrap on None")
    else
      .ok (ctx, none)
termination_by structural fuel

def intoSuccessPoolFromDicePool (fuel : ℕ) (ctx : ExecutionContext)
    (poolId : ℕ) (modParamNode : ModParamNode) (outcome : Rt.DieOutcome) :
    Except String (ExecutionContext × Option Rt.RuntimeValue) :=
  match fuel with
  | 0 => .error ("fuel exhausted")
  | fuel + 1 => do
    let (ctx, poolReady) ← ensureReady fuel ctx poolId
    let (ctx, modParamReady) ← ensureReady fuel ctx modParamNode.value
    if poolReady && modParamReady then do
      let (ctx, poolOpt) ← getDicePool fuel ctx poolId
      let (ctx, valOpt) ← getNumber fuel ctx modParamNode.value
      match poolOpt, valOpt with
      | some dicePool, some modParamValue =>
        let compareFunc := getCompareFunction modParamNode.operator modParamValue
        let details := dicePool.details.map (fun d =>
          if d.is_kept && compareFunc (d.result : ℚ) then
            { d with outcome := outcome }
          else d)
        let successPool := Rt.SuccessPoolType.renew_success_count
          ⟨0, dicePool.face, details⟩
        .ok (ctx, some (.SuccessPool successPool))
      | _, _ => .error ("unwrap on None")
    else
      .ok (ctx, none)
termination_by structural fuel

def updateSuccessPool (fuel : ℕ) (ctx : ExecutionContext) (poolId : ℕ)
    (modParamNode : ModParamNode) (outcome : Rt.DieOutcome) :
    Except String (ExecutionContext × Option Rt.RuntimeValue) :=
  match fuel with
  | 0 => .error ("fuel exhausted")
  | fuel + 1 => do
    let (ctx, poolReady) ← ensureReady fuel ctx poolId
    let (ctx, modParamReady) ← ensureReady fuel ctx modParamNode.value
    if poolReady && modParamReady then do
      let (ctx, poolOpt) ← getSuccessPool fuel ctx poolId
      let (ctx, valOpt) ← getNumber fuel ctx modParamNode.value
      match poolOpt, valOpt with
      | some successPool, some modParamValue =>
        let compareFunc := getCompareFunction modParamNode.operator modParamValue
        let details := successPool.details.map (fun d =>
          if d.is_kept && compareFunc (d.result : ℚ) then
            { d with outcome := outcome }
          else d)
        let successPool := Rt.SuccessPoolType.renew_success_count
          { successPool with details := details }
        .ok (ctx, some (.SuccessPool successPool))
      | _, _ => .error ("unwrap on None")
    else
      .ok (ctx, none)

termination_by structural fuel

/-- `process_dynamic_op`: the shared explode / compound-explode / reroll
state machine (initialize on first visit, merge the answered rolls, scan
for newly qualifying dice under the per-operation limits, either emit one
request or settle the pool). -/

def processDynamicOp (fuel : ℕ) (ctx : ExecutionContext) (nodeId dpId : ℕ)
    (modParamNode : Option ModParamNode) (limitNode : Option LimitNode)
    (mergeFn : Rt.DynamicState →
      Except String (List (ℕ × ℤ) × List Rt.RollId × Rt.DynamicState)) :
    Except String (ExecutionContext × Option Rt.RuntimeValue) :=
  match fuel with
  | 0 => .error ("fuel exhausted")
  | fuel + 1 => do
    -- Phase 1: initialize the Dynamic state on first visit.
    let (ctx, initRes) ←
      match ctx.memory.get? nodeId with
      | none => .error ("node memory index out of range")
      | some (.Dynamic _) => .ok (ctx, some false)
      | some _ => do
        let (ctx, dpReady) ← ensureReady fuel ctx dpId
        let (ctx, limitCountReady) ←
          match limitNode with
          | some ln =>
            match ln.limit_counts with
            | some lcId => ensureReady fuel ctx lcId
            | none => .ok (ctx, true)
          | none => .ok (ctx, true)
        let (ctx, limitTimesReady) ←
          match limitNode with
          | some ln =>
            match ln.limit_times with
            | some ltId => ensureReady fuel ctx ltId
            | none => .ok (ctx, true)
          | none => .ok (ctx, true)
        let (ctx, modReady) ←
          match modParamNode with
          | some node => ensureReady fuel ctx node.value
          | none => .ok (ctx, true)
        if dpReady && limitCountReady && limitTimesReady && modReady then do
          let (ctx, poolOpt) ← getDicePool fuel ctx dpId
          match poolOpt with
          | none => .error ("unwrap on None")
          | some initialPool => do
            let (ctx, limitCount) ←
              match limitNode with
              | some ln =>
                match ln.limit_counts with
                | some lcId => do
                  let (ctx, vOpt) ← getNumber fuel ctx lcId
                  match vOpt with
                  | some v => .ok (ctx, some (f64AsI32 v))
                  | none => .error ("unwrap on None")
                | none => .ok (ctx, (none : Option ℤ))
              | none => .ok (ctx, (none : Option ℤ))
            let (ctx, limitTimes) ←
              match limitNode with
              | some ln =>
                match ln.limit_times with
                | some ltId => do
                  let (ctx, vOpt) ← getNumber fuel ctx ltId
                  match vOpt with
                  | some v => .ok (ctx, some (f64AsI32 v))
                  | none => .error ("unwrap on None")
                | none => .ok (ctx, (none : Option ℤ))
              | none => .ok (ctx, (none : Option ℤ))
            let ctx := setMem ctx nodeId
              (.Dynamic ⟨initialPool, limitTimes, limitCount, []⟩)
            .ok (ctx, some true)
        else
          .ok (ctx, none)
    match initRes with
    | none => .ok (ctx, none)
    | some isInit => do
      -- Phase 2: build the comparator; defaults to "equals the maximum
      -- face value" when no compare parameter was supplied.
      let (ctx, operator, targetValue) ←
        match modParamNode with
        | some node => do
          let (ctx, vOpt) ← getNumber fuel ctx node.value
          match vOpt with
          | some v => .ok (ctx, node.operator, v)
          | none => .error ("unwrap on None")
        | none =>
          match ctx.memory.get? nodeId with
          | some (.Dynamic state) =>
            let maxFaceVal : ℚ :=
              match state.pool.face with
              | .Number n => (n : ℚ)
              | .Fudge => 1
              | .Coin => 1
            .ok (ctx, CompareOp.Equal, maxFaceVal)
          | _ => .error ("unreachable")
      let compareFunc := getCompareFunction operator targetValue
      -- Phase 3: merge, scan, settle.
      match ctx.memory.get? nodeId with
      | some (.Dynamic state) => do
        let (newDice, ctx, state) ←
          if isInit then
            .ok (((state.pool.details.enum.filter (fun p => p.2.is_kept)).map
              (fun p => (p.1, p.2.result))), ctx, state)
          else do
            match mergeFn state with
            | .error e => .error e
            | .ok (newDice, diceToRemove, state) =>
              .ok (newDice, extendRemove ctx diceToRemove, state)
        let state := { state with pending_dice := [] }
        let (canScan, state) := state.tryResumeTimes
        let (requestOpt, state) :=
          if canScan then
            let acc := newDice.foldl
              (fun (acc : List ℕ × Rt.DynamicState) d =>
                if compareFunc ((d.2 : ℤ) : ℚ) then
                  let r := acc.2.tryResumeCount
                  if r.1 then (acc.1 ++ [d.1], r.2) else (acc.1, r.2)
                else (acc.1, acc.2))
              ([], state)
            let newRolls := acc.1
            let state := acc.2
            if !newRolls.isEmpty then
              let state := { state with
                pending_dice := newRolls.map (fun i => (i, none, none)) }
              (some (⟨nodeId, state.pool.face, newRolls.length⟩ :
                Rt.RuntimeRequest), state)
            else (none, state)
          else (none, state)
        match requestOpt with
        | some req =>
          .ok (pushRequest (setMem ctx nodeId (.Dynamic state)) req, none)
        | none =>
          if state.pending_dice.isEmpty then
            let pool := state.pool.renew_total
            .ok (setMem ctx nodeId (.Computed (.DicePool pool)),
              some (.DicePool pool))
          else
            .error ("unreachable")
      | _ => .error ("unreachable")
termination_by structural fuel

end

/-- `ExecutionContext::process_runtime_responses`: write one response per
outstanding request into the target node's memory (fill a Dynamic node's
pending slots, or turn a Waiting dice leaf into a fresh computed pool),
then clear the request lists. -/
def processRuntimeResponses (ctx : ExecutionContext)
    (responses : List Rt.RuntimeResponse) : Except String ExecutionContext := do
  if responses.length ≠ ctx.requests.length then
    .error ("Mismatched number of RuntimeResponses")
  else
    let ctx' ← (responses.enum).foldlM
      (fun (c : ExecutionContext) (pr : ℕ × Rt.RuntimeResponse) => do
        match ctx.requests.get? pr.1 with
        | none => .error ("request index out of range")
        | some request =>
          let idx := request.node_id
          let diceResult := pr.2.results
          match c.memory.get? idx with
          | none => .error ("node memory index out of range")
          | some (.Dynamic state) =>
            if state.pending_dice.length ≠ diceResult.length then
              .error ("Mismatched dice result length")
            else
              let pending := List.zipWith
                (fun (p : ℕ × Option ℤ × Option Rt.RollId)
                    (r : ℤ × Rt.RollId) => (p.1, some r.1, some r.2))
                state.pending_dice diceResult
              .ok (setMem c idx (.Dynamic { state with pending_dice := pending }))
          | some .Waiting =>
            match c.graph.nodes.get? idx with
            | none => .error ("graph node index out of range")
            | some node =>
              match node with
              | .DiceStandard _ _ | .DiceFudge _ | .DiceCoin _ =>
                let newDicePool : Rt.DicePoolType :=
                  Rt.DicePoolType.renew_total
                    ⟨0, request.face,
                      diceResult.map (fun r =>
                        ⟨r.1, [r.2], [r.1], true, .None, false, 0⟩)⟩
                .ok (setMem c idx (.Computed (.DicePool newDicePool)))
              | _ => .error ("RuntimeResponse received for non-dice node")
          | some (.Computed _) =>
            .error ("RuntimeResponse received for already computed node"))
      ctx
    .ok { ctx' with requests := [], remove_requests := [] }

-- ==========================================
-- runtime.rs: the internal randomness source and the session driver
-- ==========================================

/-- Models `rand`'s `random_range(lo..=hi)` (the external randomness
collaborator): an arbitrary raw draw is reduced into the inclusive range,
which captures exactly the library's contract (a uniform in-range value). -/
def randomRange (raw : ℕ) (lo hi : ℤ) : ℤ :=
  lo + (raw % (hi - lo + 1).toNat)

/-- `generate_response`: one in-range result and a fresh roll id per
requested die; the face determines the range (standard `1..=n`,
coin `0..=1`, fudge `-1..=1`). The `rng` stream stands for the thread
rng; `counter` numbers the roll ids. -/
def generateResponse (rng : ℕ → ℕ) (request : Rt.RuntimeRequest)
    (counter : ℕ) : Rt.RuntimeResponse × ℕ :=
  let range : ℤ × ℤ :=
    match request.face with
    | .Number n => (1, n)
    | .Coin => (0, 1)
    | .Fudge => (-1, 1)
  let results := (List.range request.count).map
    (fun i => (randomRange (rng (counter + i)) range.1 range.2, counter + i))
  (⟨results⟩, counter + request.count)

inductive DiceRollerWithoutAnimationState where
  | Error (e : String)
  | Done (v : Rt.RuntimeValue)
  | WaitingForResponses (requests : List Rt.RuntimeRequest)
  | WaitingForEvaluation

structure DiceRollerWithoutAnimation where
  context : ExecutionContext
  recursion_limit : ℕ
  dice_count_limit : ℕ
  state : DiceRollerWithoutAnimationState

/-- `DiceRollerWithoutAnimation::new`, taken from the compiled evaluation
graph (the parse → lower → fold → compile pipeline runs before this point;
the textual grammar itself is the out-of-scope collaborator). -/
def mkDiceRoller (graph : EvalGraph) (recursionLimit diceCountLimit : ℕ) :
    DiceRollerWithoutAnimation :=
  ⟨ExecutionContext.new graph, recursionLimit, diceCountLimit,
    .WaitingForEvaluation⟩

/-- The `u32` sum of the requested dice counts of one drive cycle, each
addition wrapping (release-build Rust `sum::<u32>()`). -/
def requestDiceCount (requests : List Rt.RuntimeRequest) : ℕ :=
  requests.foldl (fun a r => u32wrap (a + r.count)) 0

/-- `DiceRollerWithoutAnimation::evaluation`: drive one engine step; on
NotReady consume one round from the recursion budget and the cycle's dice
from the dice budget, entering a fatal `Error` state when either budget is
exceeded. (The finished value is the computed root value; rendering it to
a display tree is the out-of-scope collaborator.) -/
def evaluation (fuel : ℕ) (roller : DiceRollerWithoutAnimation) :
    Except String DiceRollerWithoutAnimation :=
  match roller.state with
  | .WaitingForEvaluation =>
    match evalNode fuel roller.context roller.context.graph.root with
    | .ok (ctx, some v) =>
      .ok { roller with context := ctx, state := .Done v }
    | .ok (ctx, none) =>
      if roller.recursion_limit ≤ 1 then
        .ok { roller with
              context := ctx
              state := .Error ("Recursion limit exceeded") }
      else
        let recursionLimit := roller.recursion_limit - 1
        let diceCount := requestDiceCount ctx.requests
        if roller.dice_count_limit < diceCount then
          .ok { roller with
                context := ctx
                recursion_limit := recursionLimit
                state := .Error ("Dice count limit exceeded") }
        else
          .ok { roller with
                context := ctx
                recursion_limit := recursionLimit
                dice_count_limit := roller.dice_count_limit - diceCount
                state := .WaitingForResponses ctx.requests }
    | .error e =>
      .ok { roller with state := .Error e }
  | _ => .error ("Cannot evaluate: not in WaitingForEvaluation state")

/-- `DiceRollerWithoutAnimation::set_responses`. -/
def setResponses (roller : DiceRollerWithoutAnimation)
    (responses : List Rt.RuntimeResponse) :
    Except String DiceRollerWithoutAnimation :=
  match roller.state with
  | .WaitingForResponses requests =>
    if responses.length ≠ requests.length then
      .error ("Can not set responses: error responses count")
    else
      match processRuntimeResponses roller.context responses with
      | .error e => .ok { roller with state := .Error e }
      | .ok ctx =>
        .ok { roller with context := ctx, state := .WaitingForEvaluation }
  | _ => .error ("Can not set responses: not in WaitingForResponses state")

/-- `DiceRollerWithoutAnimation::try_get_results`. -/
def tryGetResults (roller : DiceRollerWithoutAnimation) :
    Except String (Option Rt.RuntimeValue) :=
  match roller.state with
  | .Error e => .error e
  | .Done v => .ok (some v)
  | _ => .ok none

/-- The drive protocol with an injected response schedule: evaluate; when
responses are awaited, submit the next scheduled batch; stop on `Done`,
`Error`, schedule exhaustion or the step bound. -/
def runSession (evalFuel : ℕ) : ℕ → DiceRollerWithoutAnimation →
    List (List Rt.RuntimeResponse) → DiceRollerWithoutAnimation
  | 0, roller, _ => roller
  | steps + 1, roller, sched =>
    match roller.state with
    | .WaitingForEvaluation =>
      match evaluation evalFuel roller with
      | .ok roller' => runSession evalFuel steps roller' sched
      | .error _ => roller
    | .WaitingForResponses _ =>
      match sched with
      | [] => roller
      | batch :: rest =>
        match setResponses roller batch with
        | .ok roller' => runSession evalFuel steps roller' rest
        | .error _ => roller
    | _ => roller

-- ==========================================
-- Concrete instances used by the theorems below
-- ==========================================

/-- A bare standard pool `cds` with constant count and sides. -/
def stdQ (c s : ℚ) : NumberType :=
  .DicePool (.Standard (.Constant c) (.Constant s))

/-- `cdskh k`: a keep-high-modified pool. -/
def khQ (c s k : ℚ) : NumberType :=
  .DicePool (.KeepHigh (.Standard (.Constant c) (.Constant s)) (.Constant k))

/-- The explicit surface list `[1,2,3]`. -/
def list123 : ListType :=
  .Explicit [.Constant 1, .Constant 2, .Constant 3]

/-- Whether a dice pool is a bare base (Standard/Fudge/Coin) with no
modifier layer. -/
def isBareBase : DicePoolType → Bool
  | .Standard _ _ => true
  | .Fudge _ => true
  | .Coin _ => true
  | _ => false

/-- Evaluation graph of `1431655766d6! + 1431655766d6! + 1431655766d6!`:
three exploding standard pools summed. -/
def overflowGraph : EvalGraph :=
  ⟨[.Constant 1431655766, .Constant 6, .DiceStandard 0 1,
    .DiceExplode 2 none none,
    .Constant 1431655766, .Constant 6, .DiceStandard 4 5,
    .DiceExplode 6 none none,
    .Constant 1431655766, .Constant 6, .DiceStandard 8 9,
    .DiceExplode 10 none none,
    .NumAdd 3 7, .NumAdd 12 11], 13⟩

/-- Evaluation graph of a bare standard pool `cds` (constant count and
sides already folded to graph constants). -/
def gStd (c s : ℕ) : EvalGraph :=
  ⟨[.Constant (c : ℚ), .Constant (s : ℚ), .DiceStandard 0 1], 2⟩

/-- Evaluation graph of a bare fudge pool `cdF`. -/
def gFudge (c : ℕ) : EvalGraph :=
  ⟨[.Constant (c : ℚ), .DiceFudge 0], 1⟩

/-- Evaluation graph of a bare coin pool `cdC`. -/
def gCoin (c : ℕ) : EvalGraph :=
  ⟨[.Constant (c : ℚ), .DiceCoin 0], 1⟩

/-- Evaluation graph applying a Number aggregate to the empty explicit
list. -/
def gAgg (agg : ℕ → EvalNode) : EvalGraph :=
  ⟨[.ListConstruct [], agg 0], 1⟩

/-- Evaluation graph of `1d6!` (used to witness session determinism). -/
def gSmallExplode : EvalGraph :=
  ⟨[.Constant 1, .Constant 6, .DiceStandard 0 1, .DiceExplode 2 none none], 3⟩

-- ==========================================
-- Theorems
-- ==========================================

def edgesClosed (nodes : List EvalNode) : Prop :=
  ∀ i node, nodes[i]? = some node → ∀ c ∈ childIds node, c < i

structure CompOk (ns : List EvalNode) (res : List EvalNode × ℕ)
    (cnt : ℕ) : Prop where
  pre : ∃ news, res.1 = ns ++ news
  len : res.1.length = ns.length + cnt
  rid : res.2 + 1 = res.1.length
  edge : edgesClosed ns → edgesClosed res.1

structure CompOkM (ns : List EvalNode) (res : List EvalNode × ModParamNode)
    (cnt : ℕ) : Prop where
  pre : ∃ news, res.1 = ns ++ news
  len : res.1.length = ns.length + cnt
  vlt : res.2.value < res.1.length
  edge : edgesClosed ns → edgesClosed res.1

structure CompOkOM (ns : List EvalNode)
    (res : List EvalNode × Option ModParamNode) (cnt : ℕ) : Prop where
  pre : ∃ news, res.1 = ns ++ news
  len : res.1.length = ns.length + cnt
  vlt : ∀ v ∈ optModParamIds res.2, v < res.1.length
  edge : edgesClosed ns → edgesClosed res.1

structure CompOkLim (ns : List EvalNode) (res : List EvalNode × LimitNode)
    (cnt : ℕ) : Prop where
  pre : ∃ news, res.1 = ns ++ news
  len : res.1.length = ns.length + cnt
  vlt : ∀ v ∈ limitNodeIds res.2, v < res.1.length
  edge : edgesClosed ns → edgesClosed res.1

structure CompOkOLim (ns : List EvalNode)
    (res : List EvalNode × Option LimitNode) (cnt : ℕ) : Prop where
  pre : ∃ news, res.1 = ns ++ news
  len : res.1.length = ns.length + cnt
  vlt : ∀ v ∈ optLimitIds res.2, v < res.1.length
  edge : edgesClosed ns → edgesClosed res.1

structure CompOkL (ns : List EvalNode) (res : List EvalNode × List ℕ)
    (cnt : ℕ) : Prop where
  pre : ∃ news, res.1 = ns ++ news
  len : res.1.length = ns.length + cnt
  vlt : ∀ v ∈ res.2, v < res.1.length
  edge : edgesClosed ns → edgesClosed res.1

/-- **C1** (counterexample). The surface operator `*` between a list and a
number is `BinOp::Mul`, which lowers to the element-wise broadcast
`ListBinary::Multiply`; folding `[1,2,3] * 2` therefore yields `[2,4,6]`,
not the repetition `[1,2,3,1,2,3]` the claim states (repetition is the
separate `**` token). -/
theorem C1_star_broadcasts_counterexample :
    parseBinOpMulDiv ['*', ' ', '2'] = some (BinOp.Mul, [' ', '2']) ∧
    lowerBinary 64 (.List list123) .Mul (.Number (.Constant 2)) =
      .ok (.List (.ListBinary (.Multiply list123 (.Constant 2)))) ∧
    constantFoldHir 64 (.List (.ListBinary (.Multiply list123 (.Constant 2)))) =
      .ok (.List (.Explicit [.Constant 2, .Constant 4, .Constant 6])) ∧
    ListType.Explicit [.Constant 2, .Constant 4, .Constant 6] ≠
      .Explicit [.Constant 1, .Constant 2, .Constant 3, .Constant 1,
        .Constant 2, .Constant 3] := by
  refine ⟨rfl, rfl, rfl, fun h => ?_⟩
  have hlen := congrArg
    (fun l => match l with | ListType.Explicit es => es.length | _ => 0) h
  simp at hlen

/-- **C1** (amended). The repetition `[1,2,3,1,2,3]` is produced by the
surface operator `**` (`BinOp::ListMul`), which lowers by expanding the
explicit list in place; the surface `*` is element-wise broadcast, so
`[1,2,3] * 2` evaluates to `[2,4,6]`. -/
theorem C1_list_repeat_amended :
    parseBinOpMulDiv ['*', '*', ' ', '2'] = some (BinOp.ListMul, [' ', '2']) ∧
    lowerBinary 64 (.List list123) .ListMul (.Number (.Constant 2)) =
      .ok (.List (.Explicit [.Constant 1, .Constant 2, .Constant 3,
        .Constant 1, .Constant 2, .Constant 3])) ∧
    lowerBinary 64 (.List list123) .Mul (.Number (.Constant 2)) =
      .ok (.List (.ListBinary (.Multiply list123 (.Constant 2)))) ∧
    constantFoldHir 64 (.List (.ListBinary (.Multiply list123 (.Constant 2)))) =
      .ok (.List (.Explicit [.Constant 2, .Constant 4, .Constant 6])) :=
  ⟨rfl, rfl, rfl, rfl⟩

/-- **C2** (counterexample). The folding pass leaves `1d6 ÷ 1` entirely
unchanged — `fold_divide` has no `x ÷ 1 → x` rule for a non-constant
dividend — so a division-by-constant-1 node survives folding, and the
folded node is not the dividend `1d6` itself. -/
theorem C2_div_one_counterexample :
    cfNumber 64 (.NumberBinary (.Divide (stdQ 1 6) (.Constant 1))) =
      .ok (.NumberBinary (.Divide (stdQ 1 6) (.Constant 1))) ∧
    NumberType.NumberBinary (.Divide (stdQ 1 6) (.Constant 1)) ≠ stdQ 1 6 :=
  ⟨rfl, fun h => NumberType.noConfusion h⟩

/-- **C2** (amended). `x ÷ 1` folds to `x` only when `x` is itself a
constant (`c ÷ 1` folds to the constant `c`), and a nested
`(y ÷ c) ÷ 1` collapses to `y ÷ c`; for any other Number-typed dividend —
in particular a dice pool — `fold_divide` returns "no change" and the
division-by-1 node is left in place. -/
theorem C2_div_one_amended :
    (∀ c : ℚ, foldDivide (.Constant c) (.Constant 1) =
      .ok (some (.Constant c))) ∧
    (∀ count sides : NumberType,
      foldBinaryOp (.Divide (.DicePool (.Standard count sides)) (.Constant 1)) =
        .ok none) ∧
    (∀ (y : NumberType) (c : ℚ), c ≠ 0 →
      foldDivide (.NumberBinary (.Divide y (.Constant c))) (.Constant 1) =
        .ok (some (.NumberBinary (.Divide y (.Constant c))))) := by
  refine ⟨fun c => ?_, fun count sides => rfl, fun y c hc => ?_⟩
  · simp [foldDivide]
  · simp [foldDivide, hc]

/-- **C2** amended-claim witness at concrete inputs. -/
theorem C2_div_one_amended_witness :
    foldDivide (.Constant 10) (.Constant 1) = .ok (some (.Constant 10)) ∧
    foldDivide (.NumberBinary (.Divide (stdQ 1 6) (.Constant 2)))
        (.Constant 1) =
      .ok (some (.NumberBinary (.Divide (stdQ 1 6) (.Constant 2)))) :=
  ⟨C2_div_one_amended.1 10,
    C2_div_one_amended.2.2 (stdQ 1 6) 2 (by norm_num)⟩

/-- **C8**. A constant zero divisor under division, integer division or
modulo with a constant dividend is a hard error at fold time (strings as
in the source), and the expression `10 / 0` is rejected by the folding
pass with a division-by-zero error. -/
theorem C8_fold_time_divide_by_zero :
    (∀ c1 : ℚ, foldBinaryOp (.Divide (.Constant c1) (.Constant 0)) =
      .error ("Division by zero")) ∧
    (∀ c1 : ℚ, foldBinaryOp (.IntDivide (.Constant c1) (.Constant 0)) =
      .error ("Integer division by zero")) ∧
    (∀ c1 : ℚ, foldBinaryOp (.Modulo (.Constant c1) (.Constant 0)) =
      .error ("Modulo by zero")) ∧
    constantFoldHir 64 (.Number (.NumberBinary (.Divide (.Constant 10)
      (.Constant 0)))) = .error ("Division by zero") := by
  refine ⟨fun c1 => ?_, fun c1 => rfl, fun c1 => rfl, rfl⟩
  simp [foldBinaryOp, foldDivide]

-- Cast facts used for the dice-merging and engine theorems.

theorem ratTrunc_intCast (z : ℤ) : ratTrunc (z : ℚ) = z := by
  unfold ratTrunc
  split <;> simp

theorem f64AsI32_intCast (z : ℤ) (h1 : i32Min ≤ z) (h2 : z ≤ i32Max) :
    f64AsI32 (z : ℚ) = z := by
  unfold f64AsI32
  rw [ratTrunc_intCast]
  unfold i32Min i32Max at *
  omega

theorem wrap32_fix (z : ℤ) (h1 : -2147483648 ≤ z) (h2 : z ≤ 2147483647) :
    wrap32 z = z := by
  unfold wrap32
  omega

theorem boolCmp_self (b : Bool) : boolCmp b b = .eq := by
  cases b <;> rfl

theorem intCmp_self (z : ℤ) : intCmp z z = .eq := by
  simp [intCmp]

theorem diceCmp_self (k : DiceType) : DiceType.cmp k k = .eq := by
  cases k <;> simp [DiceType.cmp, boolCmp_self, intCmp_self, Ordering.then]

theorem mergeableDice_std (c s : ℚ) (hc : 0 < c) :
    mergeableDice (stdQ c s) 1 =
      some (.Standard true (f64AsI32 s), f64AsI32 c) := by
  simp [mergeableDice, stdQ, NumberType.is_constant, getConstValue, hc]

/-- **C3**. Additive normalization merges bare constant-shaped standard
pools of the same sign and sides (`2d6+2d6` folds to `4d6`, and in general
`c1·ds + c2·ds` folds to `(c1+c2)·ds` while the counts stay in `i32`
range), and a pool carrying any modifier layer is never mergeable — so
`2d6kh1 + 3d6kh1` is left as two separate terms joined by `+`. -/
theorem C3_dice_term_merging :
    cfNumber 64 (.NumberBinary (.Add (stdQ 2 6) (stdQ 2 6))) =
      .ok (stdQ 4 6) ∧
    cfNumber 64 (.NumberBinary (.Add (khQ 2 6 1) (khQ 3 6 1))) =
      .ok (.NumberBinary (.Add (khQ 2 6 1) (khQ 3 6 1))) ∧
    (∀ (dp : DicePoolType) (sign : ℚ), isBareBase dp = false →
      mergeableDice (.DicePool dp) sign = none) ∧
    (∀ c1 c2 s : ℤ, 0 < c1 → 0 < c2 → 0 < s → s ≤ i32Max →
      c1 + c2 ≤ i32Max →
      foldBinaryOp (.Add (stdQ (c1:ℚ) (s:ℚ)) (stdQ (c2:ℚ) (s:ℚ))) =
        .ok (some (stdQ ((c1:ℚ) + (c2:ℚ)) (s:ℚ)))) := by
  refine ⟨rfl, rfl, ?_, ?_⟩
  · intro dp sign h
    cases dp <;> simp_all [isBareBase, mergeableDice]
  · intro c1 c2 s h1 h2 h3 h4 h5
    have hc1q : (0:ℚ) < (c1:ℚ) := by exact_mod_cast h1
    have hc2q : (0:ℚ) < (c2:ℚ) := by exact_mod_cast h2
    have hminS : i32Min ≤ s := by unfold i32Min; omega
    have hcs : f64AsI32 (s:ℚ) = s := f64AsI32_intCast s hminS h4
    have hcc1 : f64AsI32 (c1:ℚ) = c1 :=
      f64AsI32_intCast c1 (by unfold i32Min; omega)
        (by unfold i32Max at *; omega)
    have hcc2 : f64AsI32 (c2:ℚ) = c2 :=
      f64AsI32_intCast c2 (by unfold i32Min; omega)
        (by unfold i32Max at *; omega)
    have hw1 : wrap32 c1 = c1 :=
      wrap32_fix c1 (by omega) (by unfold i32Max at *; omega)
    have hw12 : wrap32 (c1 + c2) = c1 + c2 :=
      wrap32_fix _ (by omega) (by unfold i32Max at *; omega)
    show foldLinearAddSub _ _ false = _
    unfold foldLinearAddSub
    have hflat : flattenAddSub (stdQ (c2:ℚ) (s:ℚ))
        (if false = true then -1 else 1)
        (flattenAddSub (stdQ (c1:ℚ) (s:ℚ)) 1 [] 0).1
        (flattenAddSub (stdQ (c1:ℚ) (s:ℚ)) 1 [] 0).2 =
        ([(stdQ (c1:ℚ) (s:ℚ), 1), (stdQ (c2:ℚ) (s:ℚ), 1)], 0) := rfl
    simp only [hflat]
    have hmerge : mergeTerms [(stdQ (c1:ℚ) (s:ℚ), 1), (stdQ (c2:ℚ) (s:ℚ), 1)] =
        [(stdQ ((c1:ℚ) + (c2:ℚ)) (s:ℚ), 1)] := by
      unfold mergeTerms
      simp only [List.foldl, mergeableDice_std _ _ hc1q,
        mergeableDice_std _ _ hc2q]
      simp only [insertDice, diceCmp_self, hw1, hw12]
      simp only [List.reverse_singleton, List.filterMap]
      have hne : ¬ (c1 + c2 = 0) := by omega
      simp [hw1, hw12, hne, diceTermOfEntry, stdQ, hcs, hcc1, hcc2]
    simp only [hmerge]
    simp [rebuildAddTree, stdQ]

/-- **C3** witness at concrete inputs. -/
theorem C3_dice_term_merging_witness :
    foldBinaryOp (.Add (stdQ 2 6) (stdQ 2 6)) = .ok (some (stdQ 4 6)) ∧
    mergeableDice (.DicePool (.KeepHigh (.Standard (.Constant 2)
      (.Constant 6)) (.Constant 1))) 1 = none := by
  constructor
  · have h := C3_dice_term_merging.2.2.2 2 2 6 (by norm_num) (by norm_num)
      (by norm_num) (by unfold i32Max; norm_num) (by unfold i32Max; norm_num)
    simpa using h
  · exact C3_dice_term_merging.2.2.1 _ 1 rfl

/-- **C9** (code bug). Constant folding is not idempotent: folding
`2000000000d6 + 2000000000d6` merges the two pools with a wrapping `i32`
count addition, producing the pool `-294967296d6`; folding that output
again collapses it to the constant `0`, so a second fold changes the
node. (A debug build panics on the same overflowming addition.) -/
theorem C9_fold_not_idempotent :
    cfNumber 64 (.NumberBinary (.Add (stdQ 2000000000 6)
      (stdQ 2000000000 6))) = .ok (stdQ (-294967296) 6) ∧
    cfNumber 64 (stdQ (-294967296) 6) = .ok (.Constant 0) ∧
    NumberType.Constant 0 ≠ stdQ (-294967296) 6 :=
  ⟨rfl, rfl, fun h => NumberType.noConfusion h⟩

theorem edgesClosed_nil : edgesClosed [] := by
  intro i node h c
  simp at h

theorem pre_len_le {xs ys : List EvalNode} (h : ∃ news, ys = xs ++ news) :
    xs.length ≤ ys.length := by
  obtain ⟨n, rfl⟩ := h
  simp

theorem edgesClosed_push {ns : List EvalNode} {nd : EvalNode}
    (h : edgesClosed ns) (hc : ∀ c ∈ childIds nd, c < ns.length) :
    edgesClosed (ns ++ [nd]) := by
  intro i node hi c hcmem
  by_cases hlt : i < ns.length
  · rw [List.getElem?_append, if_pos hlt] at hi
    exact h i node hi c hcmem
  · have hlen : i < ns.length + 1 := by
      have := (List.getElem?_eq_some.mp hi).1
      simpa using this
    have hieq : i = ns.length := by omega
    subst hieq
    rw [List.getElem?_concat_length] at hi
    cases hi
    exact hc c hcmem

theorem CompOk.comp {ns : List EvalNode} {p1 : List EvalNode × ℕ} {c1 : ℕ}
    {p2 : List EvalNode × ℕ} {c2 : ℕ} (h1 : CompOk ns p1 c1)
    (h2 : CompOk p1.1 p2 c2) : CompOk ns p2 (c1 + c2) where
  pre := by
    obtain ⟨n1, e1⟩ := h1.pre
    obtain ⟨n2, e2⟩ := h2.pre
    exact ⟨n1 ++ n2, by simp [e2, e1]⟩
  len := by rw [h2.len, h1.len]; omega
  rid := h2.rid
  edge := fun he => h2.edge (h1.edge he)

theorem CompOk.push_node {ns : List EvalNode} {p : List EvalNode × ℕ}
    {cnt : ℕ} (h : CompOk ns p cnt) (nd : EvalNode)
    (hc : ∀ c ∈ childIds nd, c < p.1.length) :
    CompOk ns (push p.1 nd) (cnt + 1) where
  pre := by
    obtain ⟨news, hn⟩ := h.pre
    exact ⟨news ++ [nd], by simp [push, hn]⟩
  len := by
    have := h.len
    simp [push]
    omega
  rid := by simp [push]
  edge := fun he => edgesClosed_push (h.edge he) hc

theorem push_ok0 (ns : List EvalNode) (nd : EvalNode)
    (hc : ∀ c ∈ childIds nd, c < ns.length) : CompOk ns (push ns nd) 1 where
  pre := ⟨[nd], rfl⟩
  len := by simp [push]
  rid := by simp [push]
  edge := fun he => edgesClosed_push he hc

theorem one_child_bound {m n a : ℕ} (h : a + 1 = m) (hle : m ≤ n) :
    ∀ c ∈ [a], c < n := by
  intro c hc
  simp at hc
  omega

theorem two_child_bound {m1 m2 a b : ℕ} (h1 : a + 1 = m1) (hle : m1 ≤ m2)
    (h2 : b + 1 = m2) : ∀ c ∈ [a, b], c < m2 := by
  intro c hc
  simp at hc
  rcases hc with rfl | rfl <;> omega

theorem pre_trans {a b c : List EvalNode} (h1 : ∃ n, b = a ++ n)
    (h2 : ∃ n, c = b ++ n) : ∃ n, c = a ++ n := by
  obtain ⟨n1, rfl⟩ := h1
  obtain ⟨n2, rfl⟩ := h2
  exact ⟨n1 ++ n2, by simp⟩

theorem push_ok {ns ms : List EvalNode} (cnt : ℕ) (nd : EvalNode)
    (hpre : ∃ news, ms = ns ++ news) (hlen : ms.length = ns.length + cnt)
    (hedge : edgesClosed ns → edgesClosed ms)
    (hc : ∀ c ∈ childIds nd, c < ms.length) :
    CompOk ns (push ms nd) (cnt + 1) where
  pre := by
    obtain ⟨news, rfl⟩ := hpre
    exact ⟨news ++ [nd], by simp [push]⟩
  len := by simp [push]; omega
  rid := by simp [push]
  edge := fun he => edgesClosed_push (hedge he) hc

theorem chain1 {ns : List EvalNode} {p : List EvalNode × ℕ} {c : ℕ}
    (h : CompOk ns p c) (mk : ℕ → EvalNode)
    (hmk : childIds (mk p.2) = [p.2]) :
    CompOk ns (push p.1 (mk p.2)) (c + 1) :=
  h.push_node _ (by rw [hmk]; exact one_child_bound h.rid (le_refl _))

theorem chain2 {ns : List EvalNode} {p1 p2 : List EvalNode × ℕ} {c1 c2 : ℕ}
    (h1 : CompOk ns p1 c1) (h2 : CompOk p1.1 p2 c2) (mk : ℕ → ℕ → EvalNode)
    (hmk : childIds (mk p1.2 p2.2) = [p1.2, p2.2]) :
    CompOk ns (push p2.1 (mk p1.2 p2.2)) (c1 + c2 + 1) :=
  (h1.comp h2).push_node _
    (by rw [hmk]; exact two_child_bound h1.rid (pre_len_le h2.pre) h2.rid)

mutual

theorem compileNumber_ok : ∀ (t : NumberType) (ns : List EvalNode),
    CompOk ns (compileNumber t ns) (numberIrCount t)
  | .Constant v, ns =>
    push_ok0 ns (.Constant v) (by intro c hc; simp [childIds] at hc)
  | .DicePool d, ns => compileDicePool_ok d ns
  | .SuccessPool sp, ns => compileSuccessPool_ok sp ns
  | .NumberBinary (.Add l r), ns =>
    chain2 (compileNumber_ok l ns) (compileNumber_ok r _)
      (fun a b => .NumAdd a b) rfl
  | .NumberBinary (.Subtract l r), ns =>
    chain2 (compileNumber_ok l ns) (compileNumber_ok r _)
      (fun a b => .NumSubtract a b) rfl
  | .NumberBinary (.Multiply l r), ns =>
    chain2 (compileNumber_ok l ns) (compileNumber_ok r _)
      (fun a b => .NumMultiply a b) rfl
  | .NumberBinary (.Divide l r), ns =>
    chain2 (compileNumber_ok l ns) (compileNumber_ok r _)
      (fun a b => .NumDivide a b) rfl
  | .NumberBinary (.IntDivide l r), ns =>
    chain2 (compileNumber_ok l ns) (compileNumber_ok r _)
      (fun a b => .NumIntDivide a b) rfl
  | .NumberBinary (.Modulo l r), ns =>
    chain2 (compileNumber_ok l ns) (compileNumber_ok r _)
      (fun a b => .NumModulo a b) rfl
  | .NumberFunction (.Floor n), ns =>
    chain1 (compileNumber_ok n ns) (fun a => .NumFloor a) rfl
  | .NumberFunction (.Ceil n), ns =>
    chain1 (compileNumber_ok n ns) (fun a => .NumCeil a) rfl
  | .NumberFunction (.Round n), ns =>
    chain1 (compileNumber_ok n ns) (fun a => .NumRound a) rfl
  | .NumberFunction (.Abs n), ns =>
    chain1 (compileNumber_ok n ns) (fun a => .NumAbs a) rfl
  | .NumberFunction (.Max l), ns =>
    chain1 (compileList_ok l ns) (fun a => .NumMax a) rfl
  | .NumberFunction (.Min l), ns =>
    chain1 (compileList_ok l ns) (fun a => .NumMin a) rfl
  | .NumberFunction (.Sum l), ns =>
    chain1 (compileList_ok l ns) (fun a => .NumSum a) rfl
  | .NumberFunction (.Avg l), ns =>
    chain1 (compileList_ok l ns) (fun a => .NumAvg a) rfl
  | .NumberFunction (.Len l), ns =>
    chain1 (compileList_ok l ns) (fun a => .NumLen a) rfl
  | .Neg n, ns =>
    chain1 (compileNumber_ok n ns) (fun a => .NumNegate a) rfl

theorem compileList_ok : ∀ (t : ListType) (ns : List EvalNode),
    CompOk ns (compileList t ns) (listIrCount t)
  | .Explicit es, ns => by
    have h := compileNumberList_ok es ns
    exact push_ok _ _ h.pre h.len h.edge (by intro c hc; exact h.vlt c hc)
  | .ListBinary (.AddList l r), ns =>
    chain2 (compileList_ok l ns) (compileList_ok r _)
      (fun a b => .Concat a b) rfl
  | .ListBinary (.Add l r), ns =>
    chain2 (compileList_ok l ns) (compileNumber_ok r _)
      (fun a b => .ListAdd a b) rfl
  | .ListBinary (.Multiply l r), ns =>
    chain2 (compileList_ok l ns) (compileNumber_ok r _)
      (fun a b => .ListMultiply a b) rfl
  | .ListBinary (.Subtract l r), ns =>
    chain2 (compileList_ok l ns) (compileNumber_ok r _)
      (fun a b => .ListSubtract a b) rfl
  | .ListBinary (.Divide l r), ns =>
    chain2 (compileList_ok l ns) (compileNumber_ok r _)
      (fun a b => .ListDivide a b) rfl
  | .ListBinary (.IntDivide l r), ns =>
    chain2 (compileList_ok l ns) (compileNumber_ok r _)
      (fun a b => .ListIntDivide a b) rfl
  | .ListBinary (.Modulo l r), ns =>
    chain2 (compileList_ok l ns) (compileNumber_ok r _)
      (fun a b => .ListModulo a b) rfl
  | .ListBinary (.SubtractReverse l r), ns =>
    chain2 (compileNumber_ok l ns) (compileList_ok r _)
      (fun a b => .ListSubtractReverse a b) rfl
  | .ListBinary (.DivideReverse l r), ns =>
    chain2 (compileNumber_ok l ns) (compileList_ok r _)
      (fun a b => .ListDivideReverse a b) rfl
  | .ListBinary (.IntDivideReverse l r), ns =>
    chain2 (compileNumber_ok l ns) (compileList_ok r _)
      (fun a b => .ListIntDivideReverse a b) rfl
  | .ListBinary (.ModuloReverse l r), ns =>
    chain2 (compileNumber_ok l ns) (compileList_ok r _)
      (fun a b => .ListModuloReverse a b) rfl
  | .ListFunction (.Floor l), ns =>
    chain1 (compileList_ok l ns) (fun a => .ListFloor a) rfl
  | .ListFunction (.Ceil l), ns =>
    chain1 (compileList_ok l ns) (fun a => .ListCeil a) rfl
  | .ListFunction (.Round l), ns =>
    chain1 (compileList_ok l ns) (fun a => .ListRound a) rfl
  | .ListFunction (.Abs l), ns =>
    chain1 (compileList_ok l ns) (fun a => .ListAbs a) rfl
  | .ListFunction (.Sort l), ns =>
    chain1 (compileList_ok l ns) (fun a => .ListSort a) rfl
  | .ListFunction (.SortDesc l), ns =>
    chain1 (compileList_ok l ns) (fun a => .ListSortDesc a) rfl
  | .ListFunction (.Max l n), ns =>
    chain2 (compileList_ok l ns) (compileNumber_ok n _)
      (fun a b => .ListMax a b) rfl
  | .ListFunction (.Min l n), ns =>
    chain2 (compileList_ok l ns) (compileNumber_ok n _)
      (fun a b => .ListMin a b) rfl
  | .ListFunction (.ToListFromDicePool d), ns =>
    chain1 (compileDicePool_ok d ns) (fun a => .ListToListFromDicePool a) rfl
  | .ListFunction (.ToListFromSuccessPool sp), ns =>
    chain1 (compileSuccessPool_ok sp ns)
      (fun a => .ListToListFromSuccessPool a) rfl
  | .ListFunction (.Filter l mp), ns => by
    have h1 := compileList_ok l ns
    have h2 := compileModParam_ok mp (compileList l ns).1
    refine push_ok _ _ (pre_trans h1.pre h2.pre) ?_ (fun he => h2.edge (h1.edge he)) ?_
    · rw [h2.len, h1.len]; omega
    · intro c hc
      simp [childIds] at hc
      rcases hc with rfl | rfl
      · have := pre_len_le h2.pre
        have := h1.rid
        omega
      · exact h2.vlt

theorem compileDicePool_ok : ∀ (t : DicePoolType) (ns : List EvalNode),
    CompOk ns (compileDicePool t ns) (dicePoolIrCount t)
  | .Standard c sdes, ns =>
    chain2 (compileNumber_ok c ns) (compileNumber_ok sdes _)
      (fun a b => .DiceStandard a b) rfl
  | .Fudge c, ns =>
    chain1 (compileNumber_ok c ns) (fun a => .DiceFudge a) rfl
  | .Coin c, ns =>
    chain1 (compileNumber_ok c ns) (fun a => .DiceCoin a) rfl
  | .KeepHigh d n, ns =>
    chain2 (compileDicePool_ok d ns) (compileNumber_ok n _)
      (fun a b => .DiceKeepHigh a b) rfl
  | .KeepLow d n, ns =>
    chain2 (compileDicePool_ok d ns) (compileNumber_ok n _)
      (fun a b => .DiceKeepLow a b) rfl
  | .DropHigh d n, ns =>
    chain2 (compileDicePool_ok d ns) (compileNumber_ok n _)
      (fun a b => .DiceDropHigh a b) rfl
  | .DropLow d n, ns =>
    chain2 (compileDicePool_ok d ns) (compileNumber_ok n _)
      (fun a b => .DiceDropLow a b) rfl
  | .Min d n, ns =>
    chain2 (compileDicePool_ok d ns) (compileNumber_ok n _)
      (fun a b => .DiceMin a b) rfl
  | .Max d n, ns =>
    chain2 (compileDicePool_ok d ns) (compileNumber_ok n _)
      (fun a b => .DiceMax a b) rfl
  | .Explode d mp lim, ns => by
    have h1 := compileDicePool_ok d ns
    have h2 := compileOptModParam_ok mp (compileDicePool d ns).1
    have h3 := compileOptLimit_ok lim
      (compileOptModParam mp (compileDicePool d ns).1).1
    refine push_ok _ _ (pre_trans (pre_trans h1.pre h2.pre) h3.pre) ?_
      (fun he => h3.edge (h2.edge (h1.edge he))) ?_
    · rw [h3.len, h2.len, h1.len]; omega
    · intro c hc
      simp only [childIds, List.mem_append, List.mem_singleton] at hc
      rcases hc with (rfl | hmp) | hlim
      · have hl2 := pre_len_le h2.pre
        have hl3 := pre_len_le h3.pre
        have := h1.rid
        omega
      · have hl3 := pre_len_le h3.pre
        have := h2.vlt c hmp
        omega
      · exact h3.vlt c hlim
  | .CompoundExplode d mp lim, ns => by
    have h1 := compileDicePool_ok d ns
    have h2 := compileOptModParam_ok mp (compileDicePool d ns).1
    have h3 := compileOptLimit_ok lim
      (compileOptModParam mp (compileDicePool d ns).1).1
    refine push_ok _ _ (pre_trans (pre_trans h1.pre h2.pre) h3.pre) ?_
      (fun he => h3.edge (h2.edge (h1.edge he))) ?_
    · rw [h3.len, h2.len, h1.len]; omega
    · intro c hc
      simp only [childIds, List.mem_append, List.mem_singleton] at hc
      rcases hc with (rfl | hmp) | hlim
      · have hl2 := pre_len_le h2.pre
        have hl3 := pre_len_le h3.pre
        have := h1.rid
        omega
      · have hl3 := pre_len_le h3.pre
        have := h2.vlt c hmp
        omega
      · exact h3.vlt c hlim
  | .Reroll d mp lim, ns => by
    have h1 := compileDicePool_ok d ns
    have h2 := compileModParam_ok mp (compileDicePool d ns).1
    have h3 := compileOptLimit_ok lim
      (compileModParam mp (compileDicePool d ns).1).1
    refine push_ok _ _ (pre_trans (pre_trans h1.pre h2.pre) h3.pre) ?_
      (fun he => h3.edge (h2.edge (h1.edge he))) ?_
    · rw [h3.len, h2.len, h1.len]; omega
    · intro c hc
      simp only [childIds, List.mem_append, List.mem_cons,
        List.mem_singleton, List.not_mem_nil, or_false] at hc
      rcases hc with (rfl | rfl) | hlim
      · have hl2 := pre_len_le h2.pre
        have hl3 := pre_len_le h3.pre
        have := h1.rid
        omega
      · have hl3 := pre_len_le h3.pre
        have := h2.vlt
        omega
      · exact h3.vlt c hlim
  | .SubtractFailures d mp, ns => by
    have h1 := compileDicePool_ok d ns
    have h2 := compileModParam_ok mp (compileDicePool d ns).1
    refine push_ok _ _ (pre_trans h1.pre h2.pre) ?_
      (fun he => h2.edge (h1.edge he)) ?_
    · rw [h2.len, h1.len]; omega
    · intro c hc
      simp [childIds] at hc
      rcases hc with rfl | rfl
      · have := pre_len_le h2.pre
        have := h1.rid
        omega
      · exact h2.vlt

theorem compileSuccessPool_ok : ∀ (t : SuccessPoolType) (ns : List EvalNode),
    CompOk ns (compileSuccessPool t ns) (successPoolIrCount t)
  | .CountSuccessesFromDicePool d mp, ns => by
    have h1 := compileDicePool_ok d ns
    have h2 := compileModParam_ok mp (compileDicePool d ns).1
    refine push_ok _ _ (pre_trans h1.pre h2.pre) ?_
      (fun he => h2.edge (h1.edge he)) ?_
    · rw [h2.len, h1.len]; omega
    · intro c hc
      simp [childIds] at hc
      rcases hc with rfl | rfl
      · have := pre_len_le h2.pre
        have := h1.rid
        omega
      · exact h2.vlt
  | .DeductFailuresFromDicePool d mp, ns => by
    have h1 := compileDicePool_ok d ns
    have h2 := compileModParam_ok mp (compileDicePool d ns).1
    refine push_ok _ _ (pre_trans h1.pre h2.pre) ?_
      (fun he => h2.edge (h1.edge he)) ?_
    · rw [h2.len, h1.len]; omega
    · intro c hc
      simp [childIds] at hc
      rcases hc with rfl | rfl
      · have := pre_len_le h2.pre
        have := h1.rid
        omega
      · exact h2.vlt
  | .CountSuccesses sp mp, ns => by
    have h1 := compileSuccessPool_ok sp ns
    have h2 := compileModParam_ok mp (compileSuccessPool sp ns).1
    refine push_ok _ _ (pre_trans h1.pre h2.pre) ?_
      (fun he => h2.edge (h1.edge he)) ?_
    · rw [h2.len, h1.len]; omega
    · intro c hc
      simp [childIds] at hc
      rcases hc with rfl | rfl
      · have := pre_len_le h2.pre
        have := h1.rid
        omega
      · exact h2.vlt
  | .DeductFailures sp mp, ns => by
    have h1 := compileSuccessPool_ok sp ns
    have h2 := compileModParam_ok mp (compileSuccessPool sp ns).1
    refine push_ok _ _ (pre_trans h1.pre h2.pre) ?_
      (fun he => h2.edge (h1.edge he)) ?_
    · rw [h2.len, h1.len]; omega
    · intro c hc
      simp [childIds] at hc
      rcases hc with rfl | rfl
      · have := pre_len_le h2.pre
        have := h1.rid
        omega
      · exact h2.vlt

theorem compileModParam_ok : ∀ (mp : ModParam) (ns : List EvalNode),
    CompOkM ns (compileModParam mp ns) (modParamIrCount mp)
  | .mk op v, ns => by
    have h := compileNumber_ok v ns
    refine ⟨h.pre, h.len, ?_, h.edge⟩
    show (compileNumber v ns).2 < (compileNumber v ns).1.length
    have := h.rid
    omega

theorem compileOptModParam_ok : ∀ (mp : Option ModParam) (ns : List EvalNode),
    CompOkOM ns (compileOptModParam mp ns) (optModParamIrCount mp)
  | none, ns =>
    ⟨⟨[], by simp [compileOptModParam]⟩,
      by simp [compileOptModParam, optModParamIrCount],
      by intro v hv; simp [compileOptModParam, optModParamIds] at hv,
      fun he => he⟩
  | some mp, ns => by
    have h := compileModParam_ok mp ns
    refine ⟨h.pre, h.len, ?_, h.edge⟩
    intro v hv
    simp [compileOptModParam, optModParamIds] at hv
    subst hv
    exact h.vlt

theorem compileLimit_ok : ∀ (lim : Limit) (ns : List EvalNode),
    CompOkLim ns (compileLimit lim ns) (optLimitIrCount (some lim))
  | .mk none none, ns =>
    ⟨⟨[], by simp [compileLimit]⟩, by simp [compileLimit, optLimitIrCount],
      by intro v hv; simp [compileLimit, limitNodeIds] at hv,
      fun he => he⟩
  | .mk (some t) none, ns => by
    have h := compileNumber_ok t ns
    refine ⟨h.pre, ?_, ?_, h.edge⟩
    · show (compileNumber t ns).1.length =
        ns.length + optLimitIrCount (some (.mk (some t) none))
      rw [h.len]
      simp [optLimitIrCount]
    · intro v hv
      have hx : v ∈ limitNodeIds ⟨some (compileNumber t ns).2, none⟩ := hv
      have hv2 : v = (compileNumber t ns).2 := by
        simpa [limitNodeIds] using hx
      show v < (compileNumber t ns).1.length
      have := h.rid
      omega
  | .mk none (some c), ns => by
    have h := compileNumber_ok c ns
    refine ⟨h.pre, ?_, ?_, h.edge⟩
    · show (compileNumber c ns).1.length =
        ns.length + optLimitIrCount (some (.mk none (some c)))
      rw [h.len]
      simp [optLimitIrCount]
    · intro v hv
      have hx : v ∈ limitNodeIds ⟨none, some (compileNumber c ns).2⟩ := hv
      have hv2 : v = (compileNumber c ns).2 := by
        simpa [limitNodeIds] using hx
      show v < (compileNumber c ns).1.length
      have := h.rid
      omega
  | .mk (some t) (some c), ns => by
    have h1 := compileNumber_ok t ns
    have h2 := compileNumber_ok c (compileNumber t ns).1
    refine ⟨pre_trans h1.pre h2.pre, ?_, ?_, fun he => h2.edge (h1.edge he)⟩
    · show (compileNumber c (compileNumber t ns).1).1.length =
        ns.length + optLimitIrCount (some (.mk (some t) (some c)))
      rw [h2.len, h1.len]
      simp only [optLimitIrCount]
      omega
    · intro v hv
      have hx : v ∈ limitNodeIds ⟨some (compileNumber t ns).2,
          some (compileNumber c (compileNumber t ns).1).2⟩ := hv
      have hv2 : v = (compileNumber t ns).2 ∨
          v = (compileNumber c (compileNumber t ns).1).2 := by
        simpa [limitNodeIds] using hx
      show v < (compileNumber c (compileNumber t ns).1).1.length
      rcases hv2 with rfl | rfl
      · have := pre_len_le h2.pre
        have := h1.rid
        omega
      · have := h2.rid
        omega

theorem compileOptLimit_ok : ∀ (lim : Option Limit) (ns : List EvalNode),
    CompOkOLim ns (compileOptLimit lim ns) (optLimitIrCount lim)
  | none, ns =>
    ⟨⟨[], by simp [compileOptLimit]⟩,
      by simp [compileOptLimit, optLimitIrCount],
      by intro v hv; simp [compileOptLimit, optLimitIds] at hv,
      fun he => he⟩
  | some lim, ns => by
    have h := compileLimit_ok lim ns
    refine ⟨h.pre, h.len, ?_, h.edge⟩
    intro v hv
    refine h.vlt v ?_
    simpa [compileOptLimit, optLimitIds] using hv

theorem compileNumberList_ok :
    ∀ (es : List NumberType) (ns : List EvalNode),
    CompOkL ns (compileNumberList es ns) (numberListIrCount es)
  | [], ns =>
    ⟨⟨[], by simp [compileNumberList]⟩,
      by simp [compileNumberList, numberListIrCount],
      by intro v hv; simp [compileNumberList] at hv,
      fun he => he⟩
  | e :: rest, ns => by
    have h1 := compileNumber_ok e ns
    have h2 := compileNumberList_ok rest (compileNumber e ns).1
    refine ⟨pre_trans h1.pre h2.pre, ?_, ?_, fun he => h2.edge (h1.edge he)⟩
    · show (compileNumberList rest (compileNumber e ns).1).1.length =
        ns.length + numberListIrCount (e :: rest)
      rw [h2.len, h1.len]
      simp only [numberListIrCount]
      omega
    · intro v hv
      have hx : v ∈ (compileNumber e ns).2 ::
          (compileNumberList rest (compileNumber e ns).1).2 := hv
      have hv2 : v = (compileNumber e ns).2 ∨
          v ∈ (compileNumberList rest (compileNumber e ns).1).2 := by
        simpa using hx
      show v < (compileNumberList rest (compileNumber e ns).1).1.length
      rcases hv2 with rfl | hv2
      · have := pre_len_le h2.pre
        have := h1.rid
        omega
      · exact h2.vlt v hv2

end

/-- **C7**. Every graph the compiler produces is well-formed by
construction: each IR node becomes exactly one graph node (the node count
equals the IR node count), the designated root is the last node emitted,
and every child-id edge points to a strictly smaller node id than its
parent — children are emitted before parents and the graph is acyclic. -/
theorem C7_compiler_graph_invariants (hir : HIR) :
    ((compileHirToEvalGraph hir).nodes.length = hirIrCount hir) ∧
    ((compileHirToEvalGraph hir).root + 1 =
      (compileHirToEvalGraph hir).nodes.length) ∧
    (∀ i node, (compileHirToEvalGraph hir).nodes[i]? = some node →
      ∀ c ∈ childIds node, c < i) := by
  cases hir with
  | Number n =>
    have h := compileNumber_ok n []
    exact ⟨by have := h.len; simpa using this, h.rid, h.edge edgesClosed_nil⟩
  | List l =>
    have h := compileList_ok l []
    exact ⟨by have := h.len; simpa using this, h.rid, h.edge edgesClosed_nil⟩


/-- **C10**. At evaluation time `max`/`min` over an operand list that
computed to the empty list is a hard error carrying a "called on empty
list" message, while `sum` of an empty list computes `0` and `avg` of an
empty list also computes `0` instead of failing. -/
theorem C10_empty_list_aggregates (fuel : ℕ) (ctx ctx2 : ExecutionContext)
    (id n : ℕ) (h : getList fuel ctx n = .ok (ctx2, some [])) :
    evalArm (fuel + 1) ctx id (.NumMax n) =
      .error ("NumMax called on empty list") ∧
    evalArm (fuel + 1) ctx id (.NumMin n) =
      .error ("NumMin called on empty list") ∧
    evalArm (fuel + 1) ctx id (.NumSum n) = .ok (ctx2, some (.Number 0)) ∧
    evalArm (fuel + 1) ctx id (.NumAvg n) = .ok (ctx2, some (.Number 0)) := by
  refine ⟨?_, ?_, ?_, ?_⟩ <;>
    simp [evalArm, h, List.isEmpty, bind, Except.bind]

/-- **C10** witness: the aggregates applied to the literally empty list
`[]` at concrete fuel. -/
theorem C10_empty_list_aggregates_witness :
    evalArm 6 (ExecutionContext.new (gAgg EvalNode.NumMax)) 1 (.NumMax 0) =
      .error ("NumMax called on empty list") ∧
    evalArm 6 (ExecutionContext.new (gAgg EvalNode.NumMax)) 1 (.NumMin 0) =
      .error ("NumMin called on empty list") ∧
    evalArm 6 (ExecutionContext.new (gAgg EvalNode.NumMax)) 1 (.NumSum 0) =
      .ok (setMem (ExecutionContext.new (gAgg EvalNode.NumMax)) 0
        (.Computed (.List [])), some (.Number 0)) ∧
    evalArm 6 (ExecutionContext.new (gAgg EvalNode.NumMax)) 1 (.NumAvg 0) =
      .ok (setMem (ExecutionContext.new (gAgg EvalNode.NumMax)) 0
        (.Computed (.List [])), some (.Number 0)) :=
  C10_empty_list_aggregates 5 (ExecutionContext.new (gAgg EvalNode.NumMax))
    (setMem (ExecutionContext.new (gAgg EvalNode.NumMax)) 0
      (.Computed (.List []))) 1 0 rfl

/-- **C5**. Determinism: two sessions built from the same compiled
expression with the same limits and fed the identical injected response
schedule reach the same final roller state and report identical results;
the evaluation pipeline itself (`mkDiceRoller`, `evaluation`,
`setResponses`) consumes no randomness — the only random source,
`generateResponse`, lives outside the injected-response path. -/
theorem C5_session_determinism (g : EvalGraph) (rl dl evalFuel steps : ℕ)
    (sched : List (List Rt.RuntimeResponse))
    (s1 s2 : DiceRollerWithoutAnimation)
    (h1 : s1 = runSession evalFuel steps (mkDiceRoller g rl dl) sched)
    (h2 : s2 = runSession evalFuel steps (mkDiceRoller g rl dl) sched) :
    s1 = s2 ∧ tryGetResults s1 = tryGetResults s2 := by
  subst h1
  subst h2
  exact ⟨rfl, rfl⟩

/-- **C5** witness: the `1d6!` session driven by the canned responses
`6` then `3`. -/
theorem C5_session_determinism_witness :
    runSession 40 20 (mkDiceRoller gSmallExplode 10 100)
        [[⟨[(6, 0)]⟩], [⟨[(3, 1)]⟩]] =
      runSession 40 20 (mkDiceRoller gSmallExplode 10 100)
        [[⟨[(6, 0)]⟩], [⟨[(3, 1)]⟩]] ∧
    tryGetResults (runSession 40 20 (mkDiceRoller gSmallExplode 10 100)
        [[⟨[(6, 0)]⟩], [⟨[(3, 1)]⟩]]) =
      tryGetResults (runSession 40 20 (mkDiceRoller gSmallExplode 10 100)
        [[⟨[(6, 0)]⟩], [⟨[(3, 1)]⟩]]) :=
  C5_session_determinism gSmallExplode 10 100 40 20
    [[⟨[(6, 0)]⟩], [⟨[(3, 1)]⟩]]
    (runSession 40 20 (mkDiceRoller gSmallExplode 10 100)
      [[⟨[(6, 0)]⟩], [⟨[(3, 1)]⟩]])
    (runSession 40 20 (mkDiceRoller gSmallExplode 10 100)
      [[⟨[(6, 0)]⟩], [⟨[(3, 1)]⟩]]) rfl rfl

/-- **C4** (code bug). The per-round dice budget check sums the request
counts in `u32` with wrapping arithmetic: for
`1431655766d6! + 1431655766d6! + 1431655766d6!` the true request total is
4294967298 dice — far above the budget of 10 — but it wraps to 2, the
check passes, the session stays live in `WaitingForResponses` with only 8
budget deducted. The second half shows the (correctly) fatal,
non-retryable `Error` state on a run whose wrapped count still exceeds
the budget. -/
theorem C4_dice_budget_u32_wrap :
    (match evaluation 30 (mkDiceRoller overflowGraph 5 10) with
      | .ok r =>
        match r.state with
        | .WaitingForResponses reqs =>
          some ((reqs.map fun q => q.count), requestDiceCount reqs,
            r.dice_count_limit)
        | _ => none
      | .error _ => none) =
      some ([1431655766, 1431655766, 1431655766], 2, 8) ∧
    ([1431655766, 1431655766, 1431655766] : List ℕ).sum = 4294967298 ∧
    u32wrap 4294967298 = 2 ∧
    (10 : ℕ) < 4294967298 ∧
    (match evaluation 30 (mkDiceRoller overflowGraph 5 1) with
      | .ok r =>
        r.state = .Error ("Dice count limit exceeded") ∧
        evaluation 30 r =
          .error ("Cannot evaluate: not in WaitingForEvaluation state") ∧
        setResponses r [] =
          .error ("Can not set responses: not in WaitingForResponses state") ∧
        tryGetResults r = .error ("Dice count limit exceeded")
      | .error _ => False) := by
  exact ⟨rfl, by decide, by decide, by decide, rfl, rfl, rfl, rfl⟩

theorem f64AsI32_natCast (n : ℕ) (h : (n : ℤ) ≤ i32Max) :
    f64AsI32 ((n : ℕ) : ℚ) = (n : ℤ) := by
  have h0 : i32Min ≤ (n : ℤ) := by unfold i32Min; omega
  have := f64AsI32_intCast (n : ℤ) h0 h
  simpa using this

theorem randomRange_mem (raw : ℕ) (lo hi : ℤ) (h : lo ≤ hi) :
    lo ≤ randomRange raw lo hi ∧ randomRange raw lo hi ≤ hi := by
  unfold randomRange
  have hn : 0 < (hi - lo + 1).toNat := by omega
  have hmod : raw % (hi - lo + 1).toNat < (hi - lo + 1).toNat :=
    Nat.mod_lt raw hn
  omega

/-- **C6** (counterexample). With count 3 and zero sides the standard
pool resolves immediately to an empty pool: 0 die details, not c = 3. -/
theorem C6_pool_population_counterexample :
    (match evaluation 20 (mkDiceRoller (gStd 3 0) 10 100) with
      | .ok r =>
        match r.state with
        | .Done (.DicePool dp) => some dp.details.length
        | _ => none
      | .error _ => none) = some 0 ∧ (0 : ℕ) ≠ 3 :=
  ⟨rfl, by decide⟩

/-- **C6** (amended). For counts and sides within `i32` range and sides
at least 1: a standard pool of `c ≥ 1` dice emits one request for `c`
dice and, once the internal generator's response is processed, holds
exactly `c` die details, all kept, each result in `[1, s]`; with count 0
it resolves immediately to an empty pool (0 = c details). A fudge pool's
results lie in `[-1, 1]` and a coin pool's in `[0, 1]`, before any
modifier runs. -/
theorem C6_pool_population_amended (c s : ℕ) (rng : ℕ → ℕ)
    (hc1 : 1 ≤ c) (hc2 : (c : ℤ) ≤ i32Max)
    (hs1 : 1 ≤ s) (hs2 : (s : ℤ) ≤ i32Max) :
    (∃ ctxz, evalNode 5 (ExecutionContext.new (gStd 0 s)) 2 =
      .ok (ctxz, some (.DicePool ⟨0, .Number (s : ℤ), []⟩))) ∧
    (∃ ctx1 ctx2 dp,
      evalNode 5 (ExecutionContext.new (gStd c s)) 2 = .ok (ctx1, none) ∧
      ctx1.requests = [⟨2, .Number (s : ℤ), c⟩] ∧
      processRuntimeResponses ctx1
        [(generateResponse rng ⟨2, .Number (s : ℤ), c⟩ 0).1] = .ok ctx2 ∧
      evalNode 1 ctx2 2 = .ok (ctx2, some (.DicePool dp)) ∧
      dp.face = .Number (s : ℤ) ∧
      dp.details.length = c ∧
      ∀ d ∈ dp.details,
        d.is_kept = true ∧ 1 ≤ d.result ∧ d.result ≤ (s : ℤ)) ∧
    (∃ ctx1 ctx2 dp,
      evalNode 5 (ExecutionContext.new (gFudge c)) 1 = .ok (ctx1, none) ∧
      ctx1.requests = [⟨1, .Fudge, c⟩] ∧
      processRuntimeResponses ctx1
        [(generateResponse rng ⟨1, .Fudge, c⟩ 0).1] = .ok ctx2 ∧
      evalNode 1 ctx2 1 = .ok (ctx2, some (.DicePool dp)) ∧
      dp.details.length = c ∧
      ∀ d ∈ dp.details,
        d.is_kept = true ∧ -1 ≤ d.result ∧ d.result ≤ 1) ∧
    (∃ ctx1 ctx2 dp,
      evalNode 5 (ExecutionContext.new (gCoin c)) 1 = .ok (ctx1, none) ∧
      ctx1.requests = [⟨1, .Coin, c⟩] ∧
      processRuntimeResponses ctx1
        [(generateResponse rng ⟨1, .Coin, c⟩ 0).1] = .ok ctx2 ∧
      evalNode 1 ctx2 1 = .ok (ctx2, some (.DicePool dp)) ∧
      dp.details.length = c ∧
      ∀ d ∈ dp.details,
        d.is_kept = true ∧ 0 ≤ d.result ∧ d.result ≤ 1) := by
  have hc32 : f64AsI32 ((c : ℕ) : ℚ) = (c : ℤ) := f64AsI32_natCast c hc2
  have hs32 : f64AsI32 ((s : ℕ) : ℚ) = (s : ℤ) := f64AsI32_natCast s hs2
  have hcn : ¬ ((c : ℤ) ≤ 0) := by omega
  have hsn : ¬ ((s : ℤ) ≤ 0) := by omega
  have htn : ((c : ℤ)).toNat = c := by omega
  have hs1i : (1 : ℤ) ≤ (s : ℤ) := by exact_mod_cast hs1
  refine ⟨?_, ?_, ?_, ?_⟩
  -- count 0: immediate empty pool
  · have e1 : evalArm 4 (ExecutionContext.new (gStd 0 s)) 2
        (.DiceStandard 0 1) =
        (if f64AsI32 ((s : ℕ) : ℚ) ≤ 0 then
          .ok (setMem (setMem (ExecutionContext.new (gStd 0 s)) 0
              (.Computed (.Number ((0 : ℕ) : ℚ)))) 1
              (.Computed (.Number ((s : ℕ) : ℚ))),
            some (.DicePool ⟨0, .Number 0, []⟩))
        else if f64AsI32 (((0 : ℕ) : ℕ) : ℚ) ≤ 0 then
          .ok (setMem (setMem (ExecutionContext.new (gStd 0 s)) 0
              (.Computed (.Number ((0 : ℕ) : ℚ)))) 1
              (.Computed (.Number ((s : ℕ) : ℚ))),
            some (.DicePool ⟨0, .Number (f64AsI32 ((s : ℕ) : ℚ)), []⟩))
        else
          .ok (pushRequest (setMem (setMem
              (ExecutionContext.new (gStd 0 s)) 0
              (.Computed (.Number ((0 : ℕ) : ℚ)))) 1
              (.Computed (.Number ((s : ℕ) : ℚ))))
            ⟨2, .Number (f64AsI32 ((s : ℕ) : ℚ)),
              (f64AsI32 (((0 : ℕ) : ℕ) : ℚ)).toNat⟩, none)) := rfl
    rw [hs32, if_neg hsn] at e1
    have h00 : f64AsI32 (((0 : ℕ) : ℕ) : ℚ) ≤ 0 := by
      norm_num [f64AsI32, ratTrunc, i32Min, i32Max]
    rw [if_pos h00] at e1
    have e0 : evalNode 5 (ExecutionContext.new (gStd 0 s)) 2 =
        match evalArm 4 (ExecutionContext.new (gStd 0 s)) 2
          (.DiceStandard 0 1) with
        | .error e => .error e
        | .ok (ctx2, some v) => .ok (setMem ctx2 2 (.Computed v), some v)
        | .ok (ctx2, none) => .ok (ctx2, none) := rfl
    rw [e1] at e0
    exact ⟨_, e0⟩
  -- standard pool, c ≥ 1
  · have e1 : evalArm 4 (ExecutionContext.new (gStd c s)) 2
        (.DiceStandard 0 1) =
        (if f64AsI32 ((s : ℕ) : ℚ) ≤ 0 then
          .ok (setMem (setMem (ExecutionContext.new (gStd c s)) 0
              (.Computed (.Number ((c : ℕ) : ℚ)))) 1
              (.Computed (.Number ((s : ℕ) : ℚ))),
            some (.DicePool ⟨0, .Number 0, []⟩))
        else if f64AsI32 ((c : ℕ) : ℚ) ≤ 0 then
          .ok (setMem (setMem (ExecutionContext.new (gStd c s)) 0
              (.Computed (.Number ((c : ℕ) : ℚ)))) 1
              (.Computed (.Number ((s : ℕ) : ℚ))),
            some (.DicePool ⟨0, .Number (f64AsI32 ((s : ℕ) : ℚ)), []⟩))
        else
          .ok (pushRequest (setMem (setMem
              (ExecutionContext.new (gStd c s)) 0
              (.Computed (.Number ((c : ℕ) : ℚ)))) 1
              (.Computed (.Number ((s : ℕ) : ℚ))))
            ⟨2, .Number (f64AsI32 ((s : ℕ) : ℚ)),
              (f64AsI32 ((c : ℕ) : ℚ)).toNat⟩, none)) := rfl
    rw [hs32, hc32, if_neg hsn, if_neg hcn, htn] at e1
    have e0 : evalNode 5 (ExecutionContext.new (gStd c s)) 2 =
        match evalArm 4 (ExecutionContext.new (gStd c s)) 2
          (.DiceStandard 0 1) with
        | .error e => .error e
        | .ok (ctx2, some v) => .ok (setMem ctx2 2 (.Computed v), some v)
        | .ok (ctx2, none) => .ok (ctx2, none) := rfl
    rw [e1] at e0
    refine ⟨_, _, Rt.DicePoolType.renew_total ⟨0, .Number (s : ℤ),
      ((List.range c).map (fun i =>
        (randomRange (rng (0 + i)) 1 (s : ℤ), 0 + i))).map
        (fun r => ⟨r.1, [r.2], [r.1], true, .None, false, 0⟩)⟩,
      e0, rfl, rfl, ?_, ?_, ?_, ?_⟩
    · rfl
    · rfl
    · simp [Rt.DicePoolType.renew_total]
    · intro d hd
      have hd2 : d ∈ ((List.range c).map (fun i =>
          (randomRange (rng (0 + i)) 1 (s : ℤ), 0 + i))).map
          (fun r => (⟨r.1, [r.2], [r.1], true, .None, false, 0⟩ :
            Rt.DieDetail)) := hd
      simp only [List.mem_map, List.mem_range] at hd2
      obtain ⟨r, ⟨i, hic, rfl⟩, rfl⟩ := hd2
      have hb := randomRange_mem (rng (0 + i)) 1 (s : ℤ) hs1i
      exact ⟨rfl, hb.1, hb.2⟩
  -- fudge pool
  · have e1 : evalArm 4 (ExecutionContext.new (gFudge c)) 1 (.DiceFudge 0) =
        (if f64AsI32 ((c : ℕ) : ℚ) ≤ 0 then
          .ok (setMem (ExecutionContext.new (gFudge c)) 0
              (.Computed (.Number ((c : ℕ) : ℚ))),
            some (.DicePool ⟨0, .Fudge, []⟩))
        else
          .ok (pushRequest (setMem (ExecutionContext.new (gFudge c)) 0
              (.Computed (.Number ((c : ℕ) : ℚ))))
            ⟨1, .Fudge, (f64AsI32 ((c : ℕ) : ℚ)).toNat⟩, none)) := rfl
    rw [hc32, if_neg hcn, htn] at e1
    have e0 : evalNode 5 (ExecutionContext.new (gFudge c)) 1 =
        match evalArm 4 (ExecutionContext.new (gFudge c)) 1
          (.DiceFudge 0) with
        | .error e => .error e
        | .ok (ctx2, some v) => .ok (setMem ctx2 1 (.Computed v), some v)
        | .ok (ctx2, none) => .ok (ctx2, none) := rfl
    rw [e1] at e0
    refine ⟨_, _, Rt.DicePoolType.renew_total ⟨0, .Fudge,
      ((List.range c).map (fun i =>
        (randomRange (rng (0 + i)) (-1) 1, 0 + i))).map
        (fun r => ⟨r.1, [r.2], [r.1], true, .None, false, 0⟩)⟩,
      e0, rfl, rfl, ?_, ?_, ?_⟩
    · rfl
    · simp [Rt.DicePoolType.renew_total]
    · intro d hd
      have hd2 : d ∈ ((List.range c).map (fun i =>
          (randomRange (rng (0 + i)) (-1) 1, 0 + i))).map
          (fun r => (⟨r.1, [r.2], [r.1], true, .None, false, 0⟩ :
            Rt.DieDetail)) := hd
      simp only [List.mem_map, List.mem_range] at hd2
      obtain ⟨r, ⟨i, hic, rfl⟩, rfl⟩ := hd2
      have hb := randomRange_mem (rng (0 + i)) (-1) 1 (by omega)
      exact ⟨rfl, hb.1, hb.2⟩
  -- coin pool
  · have e1 : evalArm 4 (ExecutionContext.new (gCoin c)) 1 (.DiceCoin 0) =
        (if f64AsI32 ((c : ℕ) : ℚ) ≤ 0 then
          .ok (setMem (ExecutionContext.new (gCoin c)) 0
              (.Computed (.Number ((c : ℕ) : ℚ))),
            some (.DicePool ⟨0, .Coin, []⟩))
        else
          .ok (pushRequest (setMem (ExecutionContext.new (gCoin c)) 0
              (.Computed (.Number ((c : ℕ) : ℚ))))
            ⟨1, .Coin, (f64AsI32 ((c : ℕ) : ℚ)).toNat⟩, none)) := rfl
    rw [hc32, if_neg hcn, htn] at e1
    have e0 : evalNode 5 (ExecutionContext.new (gCoin c)) 1 =
        match evalArm 4 (ExecutionContext.new (gCoin c)) 1
          (.DiceCoin 0) with
        | .error e => .error e
        | .ok (ctx2, some v) => .ok (setMem ctx2 1 (.Computed v), some v)
        | .ok (ctx2, none) => .ok (ctx2, none) := rfl
    rw [e1] at e0
    refine ⟨_, _, Rt.DicePoolType.renew_total ⟨0, .Coin,
      ((List.range c).map (fun i =>
        (randomRange (rng (0 + i)) 0 1, 0 + i))).map
        (fun r => ⟨r.1, [r.2], [r.1], true, .None, false, 0⟩)⟩,
      e0, rfl, rfl, ?_, ?_, ?_⟩
    · rfl
    · simp [Rt.DicePoolType.renew_total]
    · intro d hd
      have hd2 : d ∈ ((List.range c).map (fun i =>
          (randomRange (rng (0 + i)) 0 1, 0 + i))).map
          (fun r => (⟨r.1, [r.2], [r.1], true, .None, false, 0⟩ :
            Rt.DieDetail)) := hd
      simp only [List.mem_map, List.mem_range] at hd2
      obtain ⟨r, ⟨i, hic, rfl⟩, rfl⟩ := hd2
      have hb := randomRange_mem (rng (0 + i)) 0 1 (by omega)
      exact ⟨rfl, hb.1, hb.2⟩

/-- **C6** amended-claim witness at concrete inputs (c = 2, s = 6, a
constant rng stream). -/
theorem C6_pool_population_amended_witness :
    ((1 : ℕ) ≤ 2 ∧ ((2 : ℕ) : ℤ) ≤ i32Max ∧ (1 : ℕ) ≤ 6 ∧
      ((6 : ℕ) : ℤ) ≤ i32Max) ∧
    (∃ ctx1 ctx2 dp,
      evalNode 5 (ExecutionContext.new (gStd 2 6)) 2 = .ok (ctx1, none) ∧
      ctx1.requests = [⟨2, .Number ((6 : ℕ) : ℤ), 2⟩] ∧
      processRuntimeResponses ctx1
        [(generateResponse (fun _ => 0) ⟨2, .Number ((6 : ℕ) : ℤ), 2⟩ 0).1] =
        .ok ctx2 ∧
      evalNode 1 ctx2 2 = .ok (ctx2, some (.DicePool dp)) ∧
      dp.face = .Number ((6 : ℕ) : ℤ) ∧
      dp.details.length = 2 ∧
      ∀ d ∈ dp.details,
        d.is_kept = true ∧ 1 ≤ d.result ∧ d.result ≤ ((6 : ℕ) : ℤ)) :=
  ⟨⟨by decide, by decide, by decide, by decide⟩,
    (C6_pool_population_amended 2 6 (fun _ => 0) (by decide) (by decide)
      (by decide) (by decide)).2.1⟩

end Oxidice
